import Mathlib

/-!
# DataWarp v3.1 — verification of the structural-parsing and loading core

A shallow embedding, in Lean, of the parts of the repository that the
frozen claims are about:

* `src/datawarp/utils/sanitize.py` — `sanitize_name`;
* `src/datawarp/metadata/grain.py` — `detect_grain` and its helpers;
* `src/datawarp/loader/extractor.py` — `FileExtractor.infer_structure`
  and the header/data-row scanning it performs;
* `src/datawarp/loader/excel.py` — `detect_column_drift` and
  `load_dataframe` (schema-stable writer);
* `src/datawarp/pipeline/config.py` — `SheetMapping`.

Cells and data values are modelled by their string rendering
(`Option String`, `none` standing for Python `None`/NaN); Python `dict`s
are modelled as association lists in insertion order; the destination
PostgreSQL table is modelled as an explicit column list plus row list.
CPython evaluates the ratio thresholds of `grain.py` in binary floating
point; the model uses exact rationals, which agree except on values
within one ulp of a threshold (none of the claims sits at such a value).
-/

namespace DataWarp

/-! ## Python string primitives shared by every module -/

/-- ASCII whitespace, the characters `str.strip()` and the regex class
`\s` remove in the inputs under consideration (non-ASCII whitespace is
not modelled; every claim's alphabet is ASCII plus the explicit currency
and superscript characters below). -/
def isPyWS (c : Char) : Bool :=
  c = ' ' ∨ c = '\t' ∨ c = '\n' ∨ c = '\x0d' ∨ c = '\x0b' ∨ c = '\x0c'

/-- Lowercase fold of `str.lower()` on the ASCII range. -/
def pyLowerChar (c : Char) : Char :=
  if 'A' ≤ c ∧ c ≤ 'Z' then Char.ofNat (c.toNat + 32) else c

/-- Uppercase fold of `str.upper()` on the ASCII range. -/
def pyUpperChar (c : Char) : Char :=
  if 'a' ≤ c ∧ c ≤ 'z' then Char.ofNat (c.toNat - 32) else c

def pyLower (s : String) : String := ⟨s.data.map pyLowerChar⟩

def pyUpper (s : String) : String := ⟨s.data.map pyUpperChar⟩

/-- Remove the trailing run of characters satisfying `p` (`str.rstrip`). -/
def rstripP (p : Char → Bool) (l : List Char) : List Char :=
  (l.reverse.dropWhile p).reverse

/-- `str.strip()` on the character list. -/
def stripChars (l : List Char) : List Char :=
  rstripP isPyWS (l.dropWhile isPyWS)

def pyStrip (s : String) : String := ⟨stripChars s.data⟩

/-- `needle in hay` on Python strings (substring containment). -/
def strContains (hay needle : String) : Bool :=
  (List.range (hay.data.length + 1)).any fun i =>
    needle.data.isPrefixOf (hay.data.drop i)

/-- `hay.startswith needle`. -/
def strStartsWith (hay needle : String) : Bool :=
  needle.data.isPrefixOf hay.data

/-- `hay.endswith needle`. -/
def strEndsWith (hay needle : String) : Bool :=
  needle.data.reverse.isPrefixOf hay.data.reverse

def isDigitChar (c : Char) : Bool := '0' ≤ c ∧ c ≤ '9'

/-- Syntax of a Python `float(…)` literal after stripping surrounding
whitespace: optional sign, then `D+ [. D*] | . D+`, then an optional
exponent.  (`inf`/`nan` and digit-group underscores are accepted by
CPython too; they never arise from the spreadsheet cells considered.) -/
def floatBody (l : List Char) : Bool :=
  let l := match l with
    | '+' :: rest => rest
    | '-' :: rest => rest
    | _ => l
  let mantOk : List Char → Bool := fun m =>
    match m.span isDigitChar with
    | (ds, rest) =>
      match rest with
      | [] => !ds.isEmpty
      | '.' :: fs => (!ds.isEmpty ∨ !fs.isEmpty) ∧ fs.all isDigitChar
      | _ => false
  match l.span (fun c => c ≠ 'e' ∧ c ≠ 'E') with
  | (mant, []) => mantOk mant
  | (mant, _ :: ex) =>
    let ex := match ex with
      | '+' :: rest => rest
      | '-' :: rest => rest
      | _ => ex
    mantOk mant ∧ !ex.isEmpty ∧ ex.all isDigitChar

/-- `float(s)` succeeds. -/
def pyFloatOk (s : String) : Bool :=
  floatBody (stripChars s.data)

/-- `s.replace(c, "")` for a set of characters — used to strip currency
symbols, thousands separators and percent signs before `float(…)`. -/
def removeChars (bad : List Char) (s : String) : String :=
  ⟨s.data.filter (fun c => ¬ c ∈ bad)⟩

end DataWarp

namespace DataWarp.Sanitize

/-!
## `sanitize_name` (`src/datawarp/utils/sanitize.py`)

The pipeline is modelled step by step on `List Char`:
lowercase → separator runs to `_` → drop `[^a-z0-9_]` → collapse `_+` →
strip `_` → `c_` when the head is not a letter → truncate to 63 with a
trailing-underscore strip → fall back to `"unnamed"` when empty.
-/

/-- Characters of the class `[\s\-./\\()]` replaced by underscores. -/
def isSep (c : Char) : Bool :=
  isPyWS c ∨ c = '-' ∨ c = '.' ∨ c = '/' ∨ c = '\\' ∨ c = '(' ∨ c = ')'

/-- `re.sub(r'[\s\-./\\()]+', '_', …)`: each maximal separator run
becomes one underscore.  The flag records whether the previous character
belonged to a run. -/
def sepReplaceAux : List Char → Bool → List Char
  | [], _ => []
  | c :: cs, inRun =>
    if isSep c then
      if inRun then sepReplaceAux cs true else '_' :: sepReplaceAux cs true
    else c :: sepReplaceAux cs false

def isLowerAlpha (c : Char) : Bool := 'a' ≤ c ∧ c ≤ 'z'

/-- Characters surviving `re.sub(r'[^a-z0-9_]', '', …)`. -/
def isKeep (c : Char) : Bool := isLowerAlpha c ∨ isDigitChar c ∨ c = '_'

/-- `re.sub(r'_+', '_', …)`: collapse underscore runs.  The flag records
whether the previous character was an underscore. -/
def collapseUnd : List Char → Bool → List Char
  | [], _ => []
  | c :: cs, prev =>
    if c = '_' then
      if prev then collapseUnd cs true else '_' :: collapseUnd cs true
    else c :: collapseUnd cs false

def unnamedChars : List Char := ['u', 'n', 'n', 'a', 'm', 'e', 'd']

/-- Lowercase → separator runs to `_` → drop `[^a-z0-9_]` → collapse
`_+` → strip leading/trailing `_`. -/
def coreClean (l : List Char) : List Char :=
  rstripP (fun c => c = '_')
    ((collapseUnd ((sepReplaceAux (l.map pyLowerChar) false).filter isKeep) false).dropWhile
      (fun c => c = '_'))

/-- `if result and not result[0].isalpha(): result = 'c_' + result`.
After the removal step every character is in `[a-z0-9_]`, so Python's
`str.isalpha` on the head coincides with the ASCII lowercase test. -/
def ensureAlphaHead : List Char → List Char
  | [] => []
  | c :: cs => if isLowerAlpha c then c :: cs else 'c' :: '_' :: c :: cs

/-- `if len(result) > 63: result = result[:63].rstrip('_')`. -/
def truncate63 (l : List Char) : List Char :=
  if 63 < l.length then rstripP (fun c => c = '_') (l.take 63) else l

/-- The whole of `sanitize_name` on the character list. -/
def sanitizeChars (l : List Char) : List Char :=
  if l = [] then unnamedChars else
  let r := truncate63 (ensureAlphaHead (coreClean l))
  if r = [] then unnamedChars else r

def sanitize_name (s : String) : String := ⟨sanitizeChars s.data⟩

/-! ### Shape of `sanitize_name` outputs, and idempotence -/

/-- The head character, when there is one, is an ASCII lowercase letter. -/
def headAlpha : List Char → Bool
  | [] => false
  | c :: _ => isLowerAlpha c

/-- No two consecutive underscores. -/
def noDD (l : List Char) : Prop := l.Chain' (fun a b => ¬(a = '_' ∧ b = '_'))

/-- The invariant satisfied by every `sanitize_name` output; a list of
this shape is a fixed point of the sanitizer. -/
structure SanitizedShape (l : List Char) : Prop where
  ne : l ≠ []
  keep : l.all isKeep
  head : headAlpha l
  nodd : noDD l
  last : l.getLast? ≠ some '_'
  len : l.length ≤ 63

theorem sanitizedShape_unnamed : SanitizedShape unnamedChars :=
  ⟨by decide, by decide, by decide, by unfold noDD unnamedChars; simp [List.chain'_cons],
    by decide, by decide⟩

theorem keep_not_sep {c : Char} (h : isKeep c) : ¬ isSep c = true := by
  intro hsep
  simp only [isSep, isPyWS, decide_eq_true_eq] at hsep
  simp only [isKeep, isLowerAlpha, isDigitChar, decide_eq_true_eq] at h
  rcases hsep with ⟨h1 | h1 | h1 | h1 | h1 | h1⟩ | h1 | h1 | h1 | h1 | h1 | h1 <;>
    subst h1 <;>
    rcases h with ⟨h2, h3⟩ | ⟨h2, h3⟩ | h2 <;> revert h2 <;> first | decide | (intro h2; revert h3; decide)

theorem keep_pyLower_fix {c : Char} (h : isKeep c) : pyLowerChar c = c := by
  rw [pyLowerChar, if_neg]
  simp only [isKeep, isLowerAlpha, isDigitChar, decide_eq_true_eq] at h
  rintro ⟨hA, hZ⟩
  rcases h with ⟨h2, _⟩ | ⟨_, h3⟩ | h2
  · exact absurd (le_trans h2 hZ) (by decide)
  · exact absurd (le_trans hA h3) (by decide)
  · subst h2; exact absurd hZ (by decide)

theorem sepReplaceAux_eq_self (l : List Char) (hl : ∀ c ∈ l, ¬ isSep c = true) :
    ∀ b, sepReplaceAux l b = l := by
  induction l with
  | nil => intro b; rfl
  | cons c cs ih =>
    intro b
    have hc : ¬ isSep c = true := hl c (List.mem_cons_self c cs)
    simp only [sepReplaceAux, if_neg hc]
    exact congrArg (c :: ·) (ih (fun d hd => hl d (List.mem_cons_of_mem _ hd)) false)

theorem collapseUnd_cons_und_false (cs : List Char) :
    collapseUnd ('_' :: cs) false = '_' :: collapseUnd cs true := by
  simp [collapseUnd]

theorem collapseUnd_cons_und_true (cs : List Char) :
    collapseUnd ('_' :: cs) true = collapseUnd cs true := by
  simp [collapseUnd]

theorem collapseUnd_cons_ne {c : Char} (cs : List Char) (b : Bool) (hc : c ≠ '_') :
    collapseUnd (c :: cs) b = c :: collapseUnd cs false := by
  simp [collapseUnd, hc]

theorem collapseUnd_true_of_head {l : List Char} (h : l.head? ≠ some '_') :
    collapseUnd l true = collapseUnd l false := by
  cases l with
  | nil => rfl
  | cons c cs =>
    have hc : ¬ c = '_' := by intro h'; exact h (by simp [h'])
    simp [collapseUnd, hc]

theorem collapseUnd_eq_self (l : List Char) (h : noDD l) : collapseUnd l false = l := by
  induction l with
  | nil => rfl
  | cons c cs ih =>
    simp only [noDD, List.chain'_cons'] at h
    obtain ⟨hhd, htl⟩ := h
    by_cases hc : c = '_'
    · subst hc
      have hhd' : cs.head? ≠ some '_' := by
        intro hx
        exact hhd '_' (by rw [hx]; rfl) ⟨rfl, rfl⟩
      rw [collapseUnd_cons_und_false, collapseUnd_true_of_head hhd', ih htl]
    · rw [collapseUnd_cons_ne cs false hc, ih htl]

theorem mem_collapseUnd {c : Char} : ∀ (l : List Char) (b : Bool), c ∈ collapseUnd l b → c ∈ l
  | [], _, h => by cases h
  | d :: ds, b, h => by
    by_cases hd : d = '_'
    · subst hd
      cases b with
      | true =>
        rw [collapseUnd_cons_und_true] at h
        exact List.mem_cons_of_mem _ (mem_collapseUnd ds true h)
      | false =>
        rw [collapseUnd_cons_und_false] at h
        rcases List.mem_cons.mp h with h | h
        · exact h ▸ List.mem_cons_self _ _
        · exact List.mem_cons_of_mem _ (mem_collapseUnd ds true h)
    · rw [collapseUnd_cons_ne ds b hd] at h
      rcases List.mem_cons.mp h with h | h
      · exact h ▸ List.mem_cons_self _ _
      · exact List.mem_cons_of_mem _ (mem_collapseUnd ds false h)

theorem head?_collapseUnd_true : ∀ (l : List Char), (collapseUnd l true).head? ≠ some '_'
  | [] => by simp [collapseUnd]
  | c :: cs => by
    by_cases hc : c = '_'
    · subst hc
      rw [collapseUnd_cons_und_true]
      exact head?_collapseUnd_true cs
    · rw [collapseUnd_cons_ne cs true hc]
      simp only [List.head?_cons, ne_eq, Option.some.injEq]
      exact hc

theorem noDD_collapseUnd : ∀ (l : List Char) (b : Bool), noDD (collapseUnd l b)
  | [], b => by cases b <;> simp [collapseUnd, noDD]
  | c :: cs, b => by
    by_cases hc : c = '_'
    · subst hc
      cases b with
      | true =>
        rw [collapseUnd_cons_und_true]
        exact noDD_collapseUnd cs true
      | false =>
        rw [collapseUnd_cons_und_false]
        simp only [noDD, List.chain'_cons']
        refine ⟨?_, noDD_collapseUnd cs true⟩
        rintro y hy ⟨_, hy'⟩
        exact head?_collapseUnd_true cs (by rw [hy, hy'])
    · rw [collapseUnd_cons_ne cs b hc]
      simp only [noDD, List.chain'_cons']
      exact ⟨fun y _ hpair => hc hpair.1, noDD_collapseUnd cs false⟩

theorem head?_dropWhile_ne {p : Char → Bool} {l : List Char} {c : Char}
    (hc : (l.dropWhile p).head? = some c) : ¬ p c := by
  have hne : l.dropWhile p ≠ [] := by intro h; rw [h] at hc; cases hc
  have hhead := List.head_dropWhile_not p l hne
  have heq : (l.dropWhile p).head hne = c := by
    have h2 := List.head?_eq_head hne
    rw [h2] at hc
    exact Option.some.inj hc
  rw [heq] at hhead
  simp [hhead]

theorem rstripP_eq (p : Char → Bool) (l : List Char) : rstripP p l = List.rdropWhile p l := rfl

theorem head?_of_isPrefix {l₁ l₂ : List Char} (h : l₁ <+: l₂) {c : Char}
    (hc : l₁.head? = some c) : l₂.head? = some c := by
  obtain ⟨t, rfl⟩ := h
  cases l₁ with
  | nil => cases hc
  | cons a as => simpa using hc

theorem getLast?_rdropWhile_ne (p : Char → Bool) (l : List Char) {c : Char}
    (hp : p c) : (List.rdropWhile p l).getLast? ≠ some c := by
  intro hx
  have hne : List.rdropWhile p l ≠ [] := by intro h; rw [h] at hx; cases hx
  have hlast := List.rdropWhile_last_not p l hne
  have : (List.rdropWhile p l).getLast hne = c := by
    have h2 := List.getLast?_eq_getLast _ hne
    rw [h2] at hx
    exact Option.some.inj hx
  rw [this] at hlast
  exact hlast hp

/-- Properties established by `coreClean`. -/
structure CoreCleanShape (l : List Char) : Prop where
  keep : ∀ c ∈ l, isKeep c
  nodd : noDD l
  headNe : ∀ c, l.head? = some c → c ≠ '_'
  lastNe : l.getLast? ≠ some '_'

theorem coreClean_shape (l : List Char) : CoreCleanShape (coreClean l) := by
  unfold coreClean
  rw [rstripP_eq]
  set m := collapseUnd ((sepReplaceAux (l.map pyLowerChar) false).filter isKeep) false with hm
  set d := m.dropWhile (fun c => c = '_') with hd
  have hmkeep : ∀ c ∈ m, isKeep c := by
    intro c hcm
    exact (List.mem_filter.mp (mem_collapseUnd _ _ hcm)).2
  have hmnodd : noDD m := noDD_collapseUnd _ _
  have hdm : d <:+ m := List.dropWhile_suffix _
  have hpre : List.rdropWhile (fun c => c = '_') d <+: d := List.rdropWhile_prefix _ _
  refine ⟨?_, ?_, ?_, ?_⟩
  · intro c hcr
    exact hmkeep c (hdm.sublist.subset (hpre.sublist.subset hcr))
  · exact List.Chain'.prefix (hmnodd.suffix hdm) hpre
  · intro c hcr
    have hcd := head?_of_isPrefix hpre hcr
    have := head?_dropWhile_ne hcd
    simpa using this
  · exact getLast?_rdropWhile_ne _ _ (by simp)

theorem lowerAlpha_ne_und {c : Char} (h : isLowerAlpha c) : c ≠ '_' := by
  intro he
  subst he
  exact absurd h (by decide)

theorem ensureAlphaHead_spec {x : List Char} (h : CoreCleanShape x) :
    (∀ c ∈ ensureAlphaHead x, isKeep c) ∧ noDD (ensureAlphaHead x) ∧
    (ensureAlphaHead x ≠ [] → headAlpha (ensureAlphaHead x)) ∧
    (ensureAlphaHead x).getLast? ≠ some '_' := by
  cases x with
  | nil =>
    refine ⟨?_, ?_, ?_, ?_⟩
    · intro c hc; cases hc
    · simp [noDD, ensureAlphaHead]
    · intro h'; exact absurd rfl h'
    · simp [ensureAlphaHead]
  | cons c cs =>
    have hcne : c ≠ '_' := h.headNe c rfl
    by_cases hca : isLowerAlpha c
    · simp only [ensureAlphaHead, if_pos hca]
      exact ⟨h.keep, h.nodd, fun _ => by simpa [headAlpha] using hca, h.lastNe⟩
    · simp only [ensureAlphaHead, if_neg hca]
      refine ⟨?_, ?_, fun _ => by simp [headAlpha, isLowerAlpha], ?_⟩
      · intro a ha
        rcases List.mem_cons.mp ha with rfl | ha
        · decide
        rcases List.mem_cons.mp ha with rfl | ha
        · decide
        · exact h.keep a ha
      · show List.Chain' (fun a b => ¬(a = '_' ∧ b = '_')) ('c' :: '_' :: c :: cs)
        rw [List.chain'_cons, List.chain'_cons]
        exact ⟨by decide, fun hp => hcne hp.2, by simpa [noDD] using h.nodd⟩
      · rw [List.getLast?_cons_cons, List.getLast?_cons_cons]
        exact h.lastNe

theorem truncate63_spec {x : List Char} (hkeep : ∀ c ∈ x, isKeep c) (hnodd : noDD x)
    (hhead : x ≠ [] → headAlpha x) (hlast : x.getLast? ≠ some '_') :
    (∀ c ∈ truncate63 x, isKeep c) ∧ noDD (truncate63 x) ∧
    (truncate63 x ≠ [] → headAlpha (truncate63 x)) ∧
    (truncate63 x).getLast? ≠ some '_' ∧ (truncate63 x).length ≤ 63 ∧
    (x ≠ [] → truncate63 x ≠ []) := by
  unfold truncate63
  by_cases hlen : 63 < x.length
  · rw [if_pos hlen, rstripP_eq]
    have hxne : x ≠ [] := by
      intro h0
      rw [h0] at hlen
      exact absurd hlen (by decide)
    obtain ⟨c, cs, rfl⟩ := List.exists_cons_of_ne_nil hxne
    have hca : isLowerAlpha c := by simpa [headAlpha] using hhead hxne
    have htake : (c :: cs).take 63 = c :: cs.take 62 := rfl
    set y := List.rdropWhile (fun c => c = '_') ((c :: cs).take 63) with hy
    have hypfx : y <+: (c :: cs).take 63 := List.rdropWhile_prefix _ _
    have htakesub : List.Sublist ((c :: cs).take 63) (c :: cs) := List.take_sublist _ _
    have hyne : y ≠ [] := by
      rw [hy, htake]
      intro h0
      have := List.rdropWhile_eq_nil_iff.mp h0 c (List.mem_cons_self _ _)
      exact lowerAlpha_ne_und hca (by simpa using this)
    refine ⟨?_, ?_, ?_, ?_, ?_, fun _ => hyne⟩
    · intro a ha
      exact hkeep a (htakesub.subset (hypfx.sublist.subset ha))
    · exact List.Chain'.prefix (hnodd.take 63) hypfx
    · intro _
      obtain ⟨a, as, hcons⟩ := List.exists_cons_of_ne_nil hyne
      have : ((c :: cs).take 63).head? = some a := head?_of_isPrefix hypfx (by rw [hcons]; rfl)
      rw [htake, List.head?_cons, Option.some.injEq] at this
      rw [hcons]
      simpa [headAlpha, this] using hca
    · exact getLast?_rdropWhile_ne _ _ (by simp)
    · calc y.length ≤ ((c :: cs).take 63).length := hypfx.sublist.length_le
        _ ≤ 63 := by rw [List.length_take]; omega
  · rw [if_neg hlen]
    exact ⟨hkeep, hnodd, hhead, hlast, by omega, fun h => h⟩

theorem sanitizeChars_shape (l : List Char) : SanitizedShape (sanitizeChars l) := by
  unfold sanitizeChars
  by_cases h0 : l = []
  · rw [if_pos h0]; exact sanitizedShape_unnamed
  rw [if_neg h0]
  obtain ⟨ekeep, enodd, ehead, elast⟩ := ensureAlphaHead_spec (coreClean_shape l)
  obtain ⟨tkeep, tnodd, thead, tlast, tlen, _⟩ := truncate63_spec ekeep enodd ehead elast
  show SanitizedShape
    (if truncate63 (ensureAlphaHead (coreClean l)) = [] then unnamedChars
     else truncate63 (ensureAlphaHead (coreClean l)))
  by_cases hr : truncate63 (ensureAlphaHead (coreClean l)) = []
  · rw [if_pos hr]; exact sanitizedShape_unnamed
  · rw [if_neg hr]
    exact ⟨hr, List.all_eq_true.mpr (fun c hc => tkeep c hc), thead hr, tnodd, tlast, tlen⟩

theorem map_pyLower_fixed {l : List Char} (h : ∀ c ∈ l, isKeep c) :
    l.map pyLowerChar = l := by
  induction l with
  | nil => rfl
  | cons c cs ih =>
    rw [List.map_cons, keep_pyLower_fix (h c (List.mem_cons_self _ _)),
      ih (fun d hd => h d (List.mem_cons_of_mem _ hd))]

theorem sanitizeChars_fixed {l : List Char} (h : SanitizedShape l) : sanitizeChars l = l := by
  have hkeep : ∀ c ∈ l, isKeep c := fun c hc => List.all_eq_true.mp h.keep c hc
  obtain ⟨c, cs, rfl⟩ := List.exists_cons_of_ne_nil h.ne
  have hca : isLowerAlpha c := by simpa [headAlpha] using h.head
  have hcore : coreClean (c :: cs) = c :: cs := by
    unfold coreClean
    rw [map_pyLower_fixed hkeep,
      sepReplaceAux_eq_self _ (fun d hd => keep_not_sep (hkeep d hd)) false,
      List.filter_eq_self.mpr (fun d hd => hkeep d hd),
      collapseUnd_eq_self _ h.nodd,
      List.dropWhile_cons_of_neg (by simpa using lowerAlpha_ne_und hca),
      rstripP_eq]
    rw [List.rdropWhile_eq_self_iff]
    intro hne
    have hlast := h.last
    rw [List.getLast?_eq_getLast _ hne] at hlast
    simpa using fun he => hlast (by rw [he])
  have hensure : ensureAlphaHead (c :: cs) = c :: cs := by
    simp only [ensureAlphaHead, if_pos hca]
  have hl63 := h.len
  have htrunc : truncate63 (c :: cs) = c :: cs := by
    unfold truncate63
    rw [if_neg (by omega)]
  unfold sanitizeChars
  rw [if_neg (List.cons_ne_nil c cs)]
  show (if truncate63 (ensureAlphaHead (coreClean (c :: cs))) = [] then unnamedChars
    else truncate63 (ensureAlphaHead (coreClean (c :: cs)))) = c :: cs
  rw [hcore, hensure, htrunc, if_neg (List.cons_ne_nil c cs)]

/-- C10: `sanitize_name` is total and idempotent: for every input string
the result is non-empty, at most 63 characters long, and sanitizing the
result again returns it unchanged. -/
theorem C10_sanitize_name_total_idempotent (s : String) :
    sanitize_name (sanitize_name s) = sanitize_name s ∧
    sanitize_name s ≠ "" ∧ (sanitize_name s).length ≤ 63 := by
  have hshape := sanitizeChars_shape s.data
  refine ⟨?_, ?_, ?_⟩
  · show (⟨sanitizeChars (sanitizeChars s.data)⟩ : String) = ⟨sanitizeChars s.data⟩
    rw [sanitizeChars_fixed hshape]
  · intro hne
    exact hshape.ne (congrArg String.data hne)
  · exact hshape.len

end DataWarp.Sanitize

namespace DataWarp.Grain

/-!
## Grain detection (`src/datawarp/metadata/grain.py`)

A DataFrame is modelled column-major: an ordered list of
(column name, values); `none` stands for NaN.  Confidence ratios are
exact rationals; CPython computes them in binary floating point and
additionally rounds the *reported* confidence to two decimals
(`round(confidence, 2)`), which is display-only and not modelled.
-/

def MIN_CONFIDENCE : ℚ := 0.5

def MIN_CONFIDENCE_ORG_COLUMN : ℚ := 0.3

def MIN_MATCHES : Nat := 3

def PRIMARY_ORG_COLUMN_PATTERNS : List String :=
  ["org code", "org_code", "organisation code", "organization code",
   "provider code", "provider_code", "org id", "org_id", "provider id", "provider_id"]

def EXCLUDE_VALUES : List String :=
  ["UNKNOWN", "OTHER", "UNSPECIFIED", "N/A", "NA", "-", "", "NULL", "NONE",
   "ALL PROVIDERS", "ALL TRUSTS", "ALL ICBS", "SUPPRESSED", "REDACTED", "*"]

def isUpperAlpha (c : Char) : Bool := 'A' ≤ c ∧ c ≤ 'Z'

def isUpperAlnum (c : Char) : Bool := isUpperAlpha c ∨ isDigitChar c

/-- Regex `^R[A-Z0-9]{1,4}$` (NHS Trust codes). -/
def trustPat (s : String) : Bool :=
  match s.data with
  | 'R' :: rest => 1 ≤ rest.length ∧ rest.length ≤ 4 ∧ rest.all isUpperAlnum
  | _ => false

/-- Regex `^Q[A-Z0-9]{2}$` (Integrated Care Board codes). -/
def icbPat (s : String) : Bool :=
  match s.data with
  | 'Q' :: rest => rest.length = 2 ∧ rest.all isUpperAlnum
  | _ => false

/-- Regex `^[A-Z][0-9]{5}$` (GP practice codes). -/
def gpPracticePat (s : String) : Bool :=
  match s.data with
  | c :: rest => isUpperAlpha c ∧ rest.length = 5 ∧ rest.all isDigitChar
  | _ => false

/-- Regex `^[0-9]{2}[A-Z]$` (legacy CCG codes). -/
def ccgPat (s : String) : Bool :=
  match s.data with
  | [a, b, c] => isDigitChar a ∧ isDigitChar b ∧ isUpperAlpha c
  | _ => false

/-- Regex `^Y[0-9]{2}$` (NHS Region codes). -/
def regionPat (s : String) : Bool :=
  match s.data with
  | 'Y' :: rest => rest.length = 2 ∧ rest.all isDigitChar
  | _ => false

structure EntityConfig where
  pat : Option (String → Bool)
  keywords : List String := []
  description : String
  priority : Nat

/-- `ENTITY_PATTERNS`, in dict insertion order. -/
def ENTITY_PATTERNS : List (String × EntityConfig) :=
  [("trust", ⟨some trustPat, [], "NHS Trust level", 100⟩),
   ("icb", ⟨some icbPat, [], "Integrated Care Board level", 100⟩),
   ("gp_practice", ⟨some gpPracticePat, [], "GP Practice level", 100⟩),
   ("ccg", ⟨some ccgPat, [], "Clinical Commissioning Group (legacy)", 70⟩),
   ("region", ⟨some regionPat, [], "NHS Region level", 50⟩),
   ("national", ⟨none, ["ENGLAND", "NATIONAL", "TOTAL", "ALL"], "National aggregate", 10⟩)]

/-- `NAME_PATTERNS`: (entity type, keywords, description, priority). -/
def NAME_PATTERNS : List (String × List String × String × Nat) :=
  [("trust", (["NHS TRUST", "NHS FOUNDATION TRUST", "UNIVERSITY HOSPITAL"],
     "NHS Trust level (by name)", 80)),
   ("icb", (["INTEGRATED CARE BOARD", " ICB"], "Integrated Care Board (by name)", 80))]

def MEASURE_KEYWORDS : List String :=
  ["count", "total", "number", "percent", "rate", "ratio", "average", "mean",
   "median", "sum", "referrals", "waiting", "deliveries", "admissions", "episodes",
   "attendances", "appointments", "anaesthetic", "caesarean", "spontaneous",
   "surgical", "stay", "length", "duration", "days", "hours", "weeks", "breaches",
   "waits", "patients"]

def ENTITY_KEYWORDS : List String :=
  ["code", " id", "org", "provider code", "trust code", "icb code", "region code",
   "practice code", "commissioner code", "org name", "provider name", "trust name",
   "geography"]

def _is_measure_column (col : String) : Bool :=
  MEASURE_KEYWORDS.any (fun m => strContains (pyLower col) m)

/-- `col_name.lower().replace('_', ' ').replace('\n', ' ')`. -/
def colSpaceLower (col : String) : String :=
  ⟨(pyLower col).data.map (fun c => if c = '_' ∨ c = '\n' then ' ' else c)⟩

def _is_primary_org_column (col : String) : Bool :=
  PRIMARY_ORG_COLUMN_PATTERNS.any (fun p => strContains (colSpaceLower col) p)

def _is_likely_entity_column (col : String) : Bool :=
  if MEASURE_KEYWORDS.any (fun k => strContains (colSpaceLower col) k) then false
  else if col.length ≤ 20 then true
  else ENTITY_KEYWORDS.any (fun k => strContains (colSpaceLower col) k)

def _clean_values (values : List String) : List String :=
  values.filter (fun v => ¬ (pyUpper v) ∈ EXCLUDE_VALUES)

/-- A winning entity match; `confidence` is exact (the source rounds the
reported number to two decimals for display). -/
structure EntityMatch where
  grain : String
  confidence : ℚ
  description : String
  priority : Nat
  deriving DecidableEq

/-- One iteration of the `for entity_type, config in ENTITY_PATTERNS`
loop, carrying (best match so far, best priority-times-confidence). -/
def detectStep (values : List String) (min_confidence : ℚ)
    (acc : Option EntityMatch × ℚ) (ec : String × EntityConfig) :
    Option EntityMatch × ℚ :=
  match ec.2.pat with
  | none => acc
  | some pat =>
    let matchCount := values.countP (fun v => pat v)
    let confidence : ℚ := (matchCount : ℚ) / (values.length : ℚ)
    if min_confidence ≤ confidence ∧ MIN_MATCHES ≤ matchCount then
      let priority : ℚ := (ec.2.priority : ℚ) * confidence
      if acc.2 < priority then
        (some ⟨ec.1, confidence, ec.2.description, ec.2.priority⟩, priority)
      else acc
    else acc

def _detect_entity_in_column (values : List String) (min_confidence : ℚ) :
    Option EntityMatch :=
  if values = [] then none else
  (ENTITY_PATTERNS.foldl (detectStep values min_confidence) (none, 0)).1

/-- Column-major DataFrame for grain detection. -/
structure GrainFrame where
  cols : List (String × List (Option String))

def GrainFrame.nrows (df : GrainFrame) : Nat :=
  (df.cols.map (fun c => c.2.length)).foldr max 0

/-- `df[col].dropna().head(50).astype(str).str.upper().str.strip()`. -/
def prepValues (vals : List (Option String)) : List String :=
  ((vals.filterMap id).take 50).map (fun v => pyStrip (pyUpper v))

/-- Pass 1: primary-org columns at the low threshold; a later matching
column overwrites an earlier one. -/
def pass1 (df : GrainFrame) : Option (EntityMatch × String) :=
  (df.cols.take 10).foldl
    (fun acc col =>
      if _is_measure_column col.1 then acc
      else if _is_primary_org_column col.1 then
        let values := _clean_values (prepValues col.2)
        if values = [] then acc
        else match _detect_entity_in_column values MIN_CONFIDENCE_ORG_COLUMN with
          | some m => some (m, col.1)
          | none => acc
      else acc)
    none

/-- Pass 2: any plausibly-entity column at the standard threshold,
keeping the best priority-times-confidence score. -/
def pass2 (df : GrainFrame) : Option (EntityMatch × String) :=
  ((df.cols.take 10).foldl
    (fun (acc : Option (EntityMatch × String) × ℚ) col =>
      if _is_measure_column col.1 then acc
      else if ¬ _is_likely_entity_column col.1 then acc
      else
        let values := _clean_values (prepValues col.2)
        if values = [] then acc
        else match _detect_entity_in_column values MIN_CONFIDENCE with
          | some m =>
            let priority := (m.priority : ℚ) * m.confidence
            if acc.2 < priority then (some (m, col.1), priority) else acc
          | none => acc)
    (none, 0)).1

structure GrainResult where
  grain : String
  grain_column : Option String
  confidence : ℚ
  description : String
  deriving DecidableEq

/-- `ENTITY_PATTERNS.get(g, {}).get("priority", 0)`. -/
def entityPriority (g : String) : Nat :=
  match ENTITY_PATTERNS.find? (fun p => p.1 = g) with
  | some p => p.2.priority
  | none => 0

/-- Pass 3: organisation-name keyword fallback. -/
def pass3 (df : GrainFrame) : Option GrainResult :=
  (df.cols.take 10).findSome? fun col =>
    if _is_measure_column col.1 then none
    else
      let values := prepValues col.2
      if values = [] then none
      else
        let allText := String.intercalate " " values
        NAME_PATTERNS.findSome? fun np =>
          if np.2.1.any (fun kw => strContains allText kw) then
            let rowMatches := values.countP (fun v => np.2.1.any (fun kw => strContains v kw))
            let confidence : ℚ := (rowMatches : ℚ) / (values.length : ℚ)
            if (0.3 : ℚ) ≤ confidence ∧ MIN_MATCHES ≤ rowMatches then
              some ⟨np.1, some col.1, confidence, np.2.2.1⟩
            else none
          else none

/-- Pass 4: national aggregate keywords (last resort). -/
def pass4 (df : GrainFrame) : Option GrainResult :=
  (df.cols.take 10).findSome? fun col =>
    let values := prepValues col.2
    if values = [] then none
    else
      let allText := String.intercalate " " values
      let kws := (match ENTITY_PATTERNS.find? (fun p => p.1 = "national") with
        | some p => p.2.keywords
        | none => [])
      if kws.any (fun kw => strContains allText kw) then
        some ⟨"national", none, 0.8, "National aggregate data"⟩
      else none

/-- `detect_grain` with the hierarchical-table resolution step. -/
def detect_grain (df : GrainFrame) : GrainResult :=
  if df.cols = [] ∨ df.nrows = 0 then ⟨"unknown", none, 0, ""⟩
  else
    match pass1 df, pass2 df with
    | some pm, some bm =>
      if 70 ≤ entityPriority pm.1.grain then
        ⟨pm.1.grain, some pm.2, pm.1.confidence, pm.1.description⟩
      else ⟨bm.1.grain, some bm.2, bm.1.confidence, bm.1.description⟩
    | none, some bm => ⟨bm.1.grain, some bm.2, bm.1.confidence, bm.1.description⟩
    | some pm, none => ⟨pm.1.grain, some pm.2, pm.1.confidence, pm.1.description⟩
    | none, none =>
      match pass3 df with
      | some r => r
      | none =>
        match pass4 df with
        | some r => r
        | none => ⟨"unknown", none, 0, ""⟩

/-! ### Claim C6: fine-grained primary identifier beats the region column -/

theorem detectStep_skip (values : List String) (τ : ℚ) (acc : Option EntityMatch × ℚ)
    (name : String) (pat : String → Bool) (kws : List String) (desc : String) (pr : Nat)
    (h : values.countP (fun v => pat v) = 0) :
    detectStep values τ acc (name, ⟨some pat, kws, desc, pr⟩) = acc := by
  simp only [detectStep]
  rw [if_neg]
  rintro ⟨_, h3⟩
  rw [h] at h3
  exact absurd h3 (by decide)

theorem detectStep_trust (values : List String)
    (h1 : MIN_MATCHES ≤ values.countP (fun v => trustPat v))
    (h2 : MIN_CONFIDENCE_ORG_COLUMN ≤
      (values.countP (fun v => trustPat v) : ℚ) / (values.length : ℚ))
    (h3 : (0 : ℚ) < (values.countP (fun v => trustPat v) : ℚ) / (values.length : ℚ)) :
    detectStep values MIN_CONFIDENCE_ORG_COLUMN (none, 0)
        ("trust", ⟨some trustPat, [], "NHS Trust level", 100⟩) =
      (some ⟨"trust", (values.countP (fun v => trustPat v) : ℚ) / (values.length : ℚ),
        "NHS Trust level", 100⟩,
       ((100 : Nat) : ℚ) * ((values.countP (fun v => trustPat v) : ℚ) / (values.length : ℚ))) := by
  simp only [detectStep]
  rw [if_pos ⟨h2, h1⟩, if_pos]
  exact mul_pos (by norm_num) h3

theorem detect_entity_trust {vs : List String}
    (h1 : MIN_MATCHES ≤ vs.countP (fun v => trustPat v))
    (h2 : MIN_CONFIDENCE_ORG_COLUMN * (vs.length : ℚ) ≤ vs.countP (fun v => trustPat v))
    (hicb : vs.countP (fun v => icbPat v) = 0)
    (hgp : vs.countP (fun v => gpPracticePat v) = 0)
    (hccg : vs.countP (fun v => ccgPat v) = 0)
    (hreg : vs.countP (fun v => regionPat v) = 0) :
    _detect_entity_in_column vs MIN_CONFIDENCE_ORG_COLUMN =
      some ⟨"trust", (vs.countP (fun v => trustPat v) : ℚ) / (vs.length : ℚ),
        "NHS Trust level", 100⟩ := by
  have hne : vs ≠ [] := by
    intro h0
    rw [h0] at h1
    exact absurd h1 (by decide)
  have hnpos : (0 : ℚ) < (vs.length : ℚ) := by
    have : 0 < vs.length := List.length_pos.mpr hne
    exact_mod_cast this
  have hconf : MIN_CONFIDENCE_ORG_COLUMN ≤
      (vs.countP (fun v => trustPat v) : ℚ) / (vs.length : ℚ) :=
    (le_div_iff₀ hnpos).mpr h2
  have hcpos : (0 : ℚ) < (vs.countP (fun v => trustPat v) : ℚ) / (vs.length : ℚ) := by
    apply div_pos _ hnpos
    have : 0 < vs.countP (fun v => trustPat v) := by
      have := h1
      simp only [MIN_MATCHES] at this
      omega
    exact_mod_cast this
  unfold _detect_entity_in_column
  rw [if_neg hne]
  simp only [ENTITY_PATTERNS, List.foldl_cons, List.foldl_nil]
  rw [detectStep_trust vs h1 hconf hcpos, detectStep_skip _ _ _ _ _ _ _ _ hicb,
    detectStep_skip _ _ _ _ _ _ _ _ hgp, detectStep_skip _ _ _ _ _ _ _ _ hccg,
    detectStep_skip _ _ _ _ _ _ _ _ hreg]
  rfl

/-- The two-column frame of the claim: a coarse region-code column next
to a primary-identifier column. -/
def hierFrame (rvs ovs : List (Option String)) : GrainFrame :=
  ⟨[("region_code", rvs), ("org_code", ovs)]⟩

theorem pass1_hierFrame (rvs ovs : List (Option String))
    (hne : _clean_values (prepValues ovs) ≠ [])
    (hdet : _detect_entity_in_column (_clean_values (prepValues ovs)) MIN_CONFIDENCE_ORG_COLUMN =
      some ⟨"trust", (((_clean_values (prepValues ovs)).countP (fun v => trustPat v) : ℚ) /
        ((_clean_values (prepValues ovs)).length : ℚ)), "NHS Trust level", 100⟩) :
    pass1 (hierFrame rvs ovs) =
      some (⟨"trust", (((_clean_values (prepValues ovs)).countP (fun v => trustPat v) : ℚ) /
        ((_clean_values (prepValues ovs)).length : ℚ)), "NHS Trust level", 100⟩, "org_code") := by
  unfold pass1 hierFrame
  simp only [List.take_succ_cons, List.take_nil, List.foldl_cons, List.foldl_nil]
  rw [if_neg (by decide : ¬ _is_measure_column "region_code" = true),
    if_neg (by decide : ¬ _is_primary_org_column "region_code" = true),
    if_neg (by decide : ¬ _is_measure_column "org_code" = true),
    if_pos (by decide : _is_primary_org_column "org_code" = true)]
  simp only [if_neg hne, hdet]

/-- C6: a DataFrame whose first ten columns include a region-code column
and a primary-identifier column `org_code` whose cleaned values match the
NHS-trust pattern at least 3 times and on at least 30 percent of values
(and match no other entity pattern) is classified at trust grain with
`org_code` as the grain column, regardless of the region column. -/
theorem C6_grain_prefers_primary_identifier (rvs ovs : List (Option String))
    (h1 : MIN_MATCHES ≤ (_clean_values (prepValues ovs)).countP (fun v => trustPat v))
    (h2 : MIN_CONFIDENCE_ORG_COLUMN * ((_clean_values (prepValues ovs)).length : ℚ) ≤
      (_clean_values (prepValues ovs)).countP (fun v => trustPat v))
    (hicb : (_clean_values (prepValues ovs)).countP (fun v => icbPat v) = 0)
    (hgp : (_clean_values (prepValues ovs)).countP (fun v => gpPracticePat v) = 0)
    (hccg : (_clean_values (prepValues ovs)).countP (fun v => ccgPat v) = 0)
    (hreg : (_clean_values (prepValues ovs)).countP (fun v => regionPat v) = 0) :
    (detect_grain (hierFrame rvs ovs)).grain = "trust" ∧
    (detect_grain (hierFrame rvs ovs)).grain_column = some "org_code" := by
  have hvs3 : 3 ≤ (_clean_values (prepValues ovs)).countP (fun v => trustPat v) := h1
  have hvslen : 3 ≤ (_clean_values (prepValues ovs)).length :=
    le_trans hvs3 (List.countP_le_length _)
  have hne : _clean_values (prepValues ovs) ≠ [] := by
    intro h0
    rw [h0] at hvslen
    exact absurd hvslen (by decide)
  have hlenovs : 3 ≤ ovs.length := by
    calc 3 ≤ (_clean_values (prepValues ovs)).length := hvslen
      _ ≤ (prepValues ovs).length := List.length_filter_le _ _
      _ = ((ovs.filterMap id).take 50).length := by simp [prepValues]
      _ ≤ (ovs.filterMap id).length := by rw [List.length_take]; exact min_le_right _ _
      _ ≤ ovs.length := List.length_filterMap_le _ _
  have hguard : ¬ ((hierFrame rvs ovs).cols = [] ∨ (hierFrame rvs ovs).nrows = 0) := by
    rintro (h | h)
    · exact absurd h (by simp [hierFrame])
    · simp only [hierFrame, GrainFrame.nrows, List.map_cons, List.map_nil,
        List.foldr_cons, List.foldr_nil] at h
      omega
  have hdet := detect_entity_trust h1 h2 hicb hgp hccg hreg
  have hpass1 := pass1_hierFrame rvs ovs hne hdet
  unfold detect_grain
  rw [if_neg hguard, hpass1]
  cases hb : pass2 (hierFrame rvs ovs) with
  | none => exact ⟨rfl, rfl⟩
  | some bm =>
    exact ⟨rfl, rfl⟩

/-- Witness frame for C6's hypotheses: four region codes beside four
trust codes. -/
theorem C6_witness :
    (detect_grain (hierFrame [some "Y56", some "Y56", some "Y57", some "Y58"]
        [some "RJ1", some "RXH", some "R0A", some "RAB"])).grain = "trust" ∧
    (detect_grain (hierFrame [some "Y56", some "Y56", some "Y57", some "Y58"]
        [some "RJ1", some "RXH", some "R0A", some "RAB"])).grain_column = some "org_code" := by
  apply C6_grain_prefers_primary_identifier
  · decide
  · have hc : (_clean_values (prepValues [some "RJ1", some "RXH", some "R0A",
        some "RAB"])).countP (fun v => trustPat v) = 4 := by decide
    have hl : (_clean_values (prepValues [some "RJ1", some "RXH", some "R0A",
        some "RAB"])).length = 4 := by decide
    rw [hc, hl]
    norm_num [MIN_CONFIDENCE_ORG_COLUMN]
  all_goals decide

end DataWarp.Grain

namespace DataWarp.Loader

/-!
## Schema-stable loading (`src/datawarp/loader/excel.py`) and
`SheetMapping` (`src/datawarp/pipeline/config.py`)

`load_dataframe` is modelled as a pure function from the destination
state, the DataFrame and the call arguments to the new state.  A
DataFrame is row-major (ordered column names plus rows of cells); a cell
is `Option String` with `none` for NaN/NULL.  The destination store is
`Option PgTable` — the single destination table, absent until created.
Python dicts are association lists in insertion order; Python sets are
first-occurrence-deduplicated lists (CPython iterates sets in an
unspecified order; only membership and emptiness of these sets matter to
the claims).
-/

abbrev Cell := Option String

structure PyDataFrame where
  cols : List String
  rows : List (List Cell)
  deriving DecidableEq

/-- `df.empty`: a DataFrame with no rows or no columns. -/
def PyDataFrame.isEmpty (df : PyDataFrame) : Bool :=
  df.rows.isEmpty ∨ df.cols.isEmpty

/-- Keep the entries of `l` whose mask position is `true`. -/
def maskKeep {α : Type} (mask : List Bool) (l : List α) : List α :=
  ((mask.zip l).filter (fun p => p.1)).map (fun p => p.2)

def cellAt (r : List Cell) (j : Nat) : Cell := (r.get? j).getD none

/-- `df.dropna(how='all')`: drop rows whose cells are all NaN. -/
def dropAllNaRows (df : PyDataFrame) : PyDataFrame :=
  ⟨df.cols, df.rows.filter (fun r => r.any (fun c => c.isSome))⟩

/-- Column-keep mask for `df.dropna(axis=1, how='all')`. -/
def colMask (df : PyDataFrame) : List Bool :=
  (List.range df.cols.length).map (fun j => df.rows.any (fun r => (cellAt r j).isSome))

/-- `df.dropna(axis=1, how='all')`: drop columns whose cells are all NaN. -/
def dropAllNaCols (df : PyDataFrame) : PyDataFrame :=
  ⟨maskKeep (colMask df) df.cols, df.rows.map (maskKeep (colMask df))⟩

/-- Mask of columns kept by the `unnamed` filter. -/
def unnamedMask (df : PyDataFrame) : List Bool :=
  df.cols.map (fun c => ¬ strStartsWith (pyLower c) "unnamed")

/-- Drop columns whose lowercase name starts with `unnamed`. -/
def dropUnnamed (df : PyDataFrame) : PyDataFrame :=
  ⟨maskKeep (unnamedMask df) df.cols, df.rows.map (maskKeep (unnamedMask df))⟩

/-- `dropna` both axes then the unnamed filter (lines 309–317). -/
def prepareDf (df : PyDataFrame) : PyDataFrame :=
  dropUnnamed (dropAllNaCols (dropAllNaRows df))

/-- `dict.get(k, d)` on an association list. -/
def lookupD (m : List (String × String)) (k : String) (d : String) : String :=
  match m.find? (fun p => p.1 = k) with
  | some p => p.2
  | none => d

/-- `dict.get(k)` on an association list. -/
def lookup? (m : List (String × String)) (k : String) : Option String :=
  (m.find? (fun p => p.1 = k)).map (fun p => p.2)

/-- `d[k] = v` on an association list (overwrite in place or append). -/
def dictInsert (m : List (String × String)) (k v : String) : List (String × String) :=
  if m.any (fun p => p.1 = k) then m.map (fun p => if p.1 = k then (k, v) else p)
  else m ++ [(k, v)]

/-- STEP 1 of `load_dataframe`: sanitize each column name once, apply
the saved mapping, rename the DataFrame. -/
def renameCols (columnMappings : List (String × String)) (df : PyDataFrame) : PyDataFrame :=
  ⟨df.cols.map (fun c =>
      lookupD columnMappings (Sanitize.sanitize_name c) (Sanitize.sanitize_name c)),
   df.rows⟩

/-- One iteration of the duplicate-suffixing loop (`seen` counter,
lines 334–344): on a repeat, bump the counter and emit the suffixed
name; otherwise emit `col` and record it. -/
def dedupStep (acc : List String × List (String × Nat)) (col : String) :
    List String × List (String × Nat) :=
  match acc.2.find? (fun p => p.1 = col) with
  | some p =>
    ((acc.1 ++ [col ++ "_" ++ toString (p.2 + 1)]),
     acc.2.map (fun q => if q.1 = col then (q.1, q.2 + 1) else q))
  | none => (acc.1 ++ [col], acc.2 ++ [(col, 0)])

/-- Duplicate-name suffixing over the whole column list. -/
def dedupNames (cols : List String) : List String :=
  (cols.foldl dedupStep ([], [])).1

/-- `df['period'] = period`: overwrite an existing period column in
place, else append one; every row gets the period value. -/
def setPeriod (df : PyDataFrame) (p : String) : PyDataFrame :=
  match df.cols.findIdx? (fun c => c = "period") with
  | some j => ⟨df.cols, df.rows.map (fun r => r.set j (some p))⟩
  | none => ⟨df.cols ++ ["period"], df.rows.map (fun r => r ++ [some p])⟩

/-- Rename, deduplicate, attach the period column — the computed-once
column list everything downstream uses. -/
def renameDedupPeriod (columnMappings : List (String × String)) (period : Option String)
    (df : PyDataFrame) : PyDataFrame :=
  let df2 := renameCols columnMappings df
  let df3 : PyDataFrame := ⟨dedupNames df2.cols, df2.rows⟩
  match period with
  | some p => if p ≠ "" then setPeriod df3 p else df3
  | none => df3

/-- The DataFrame as it stands when the DDL is generated (`df` after
STEP 1 and the period attach). -/
def finalDf (columnMappings : List (String × String)) (period : Option String)
    (df : PyDataFrame) : PyDataFrame :=
  renameDedupPeriod columnMappings period (prepareDf df)

def colValues (df : PyDataFrame) (j : Nat) : List Cell :=
  df.rows.map (fun r => cellAt r j)

/-- `_infer_pg_type` on a string-valued series.  Every cell of the model
is a rendered string (pandas dtype `object`), so the integer / float /
bool / datetime dtype branches of the source are unreachable here and
only the name-hint, empty and string branches are taken. -/
def _infer_pg_type (name : String) (values : List Cell) : String :=
  if (["description", "definition", "notes", "comment", "detail"] : List String).any
      (fun x => strContains (pyLower name) x) then "TEXT"
  else
    let nonNull := values.filterMap id
    if nonNull.isEmpty then "TEXT"
    else
      let maxLen : Nat := (nonNull.map (fun v => v.length)).foldr max 0
      if maxLen ≤ 20 then "VARCHAR(50)"
      else if maxLen ≤ 100 then "VARCHAR(255)"
      else "TEXT"

/-- STEP 2: per-column type, extractor hint first (lines 354–364). -/
def columnTypes (extractorTypes : List (String × String)) (df : PyDataFrame) :
    List (String × String) :=
  (List.range df.cols.length).map fun j =>
    let col := (df.cols.get? j).getD ""
    match extractorTypes.find? (fun p => p.1 = col) with
    | some p => (col, p.2)
    | none => (col, _infer_pg_type col (colValues df j))

structure PgColumn where
  name : String
  ty : String
  deriving DecidableEq

structure PgTable where
  cols : List PgColumn
  rows : List (List Cell)
  deriving DecidableEq

/-- The destination store: the one destination table, if it exists. -/
abbrev DB := Option PgTable

/-- `CREATE TABLE IF NOT EXISTS` from the per-column type list. -/
def ensureSchema (db : DB) (types : List (String × String)) (cols : List String) : PgTable :=
  match db with
  | none => ⟨cols.map (fun c => ⟨c, lookupD types c "TEXT"⟩), []⟩
  | some t => t

def addColumn (t : PgTable) (c : PgColumn) : PgTable :=
  ⟨t.cols ++ [c], t.rows.map (fun r => r ++ [none])⟩

/-- The `ALTER TABLE … ADD COLUMN` loop against the snapshot of
`information_schema` column names taken before the loop (lines 388–397). -/
def addMissing (t : PgTable) (types : List (String × String)) (cols : List String)
    (existing : List String) : PgTable :=
  cols.foldl
    (fun acc c => if c ∈ existing then acc else addColumn acc ⟨c, lookupD types c "TEXT"⟩) t

/-- `DELETE FROM … WHERE period = %s` — the column is resolved by name
on the current table; rows with NULL period are kept. -/
def deletePeriod (t : PgTable) (p : String) : PgTable :=
  match t.cols.findIdx? (fun c => c.name = "period") with
  | some j => ⟨t.cols, t.rows.filter (fun r => ¬ cellAt r j = some p)⟩
  | none => t

def numericTypePrefixes : List String :=
  ["NUMERIC", "DOUBLE", "INTEGER", "SMALLINT", "BIGINT", "REAL"]

def isNumericType (ty : String) : Bool :=
  numericTypePrefixes.any (fun p => strStartsWith (pyUpper ty) p)

/-- Replace empty strings by NULL in numeric columns before COPY
(lines 408–415). -/
def fixEmptyNumeric (types : List (String × String)) (df : PyDataFrame) : PyDataFrame :=
  let mask := df.cols.map (fun c => isNumericType (lookupD types c "TEXT"))
  ⟨df.cols,
   df.rows.map (fun r => (mask.zip r).map (fun p => if p.1 ∧ p.2 = some "" then none else p.2))⟩

/-- One COPY row: the table's columns filled from the DataFrame columns
present in the COPY column list, NULL elsewhere. -/
def alignRow (tcols : List PgColumn) (dfCols : List String) (r : List Cell) : List Cell :=
  tcols.map fun c =>
    match dfCols.findIdx? (fun n => n = c.name) with
    | some j => cellAt r j
    | none => none

/-- Bulk COPY of the DataFrame rows. -/
def insertRows (t : PgTable) (df : PyDataFrame) : PgTable :=
  ⟨t.cols, t.rows ++ df.rows.map (alignRow t.cols df.cols)⟩

/-- `SheetMapping` (`src/datawarp/pipeline/config.py`). -/
structure SheetMapping where
  sheet_pattern : String := ""
  table_name : String := ""
  table_description : String := ""
  column_mappings : List (String × String) := []
  column_descriptions : List (String × String) := []
  column_types : List (String × String) := []
  grain : String := "unknown"
  grain_column : Option String := none
  grain_description : String := ""
  mappings_version : Nat := 1
  last_enriched : Option String := none
  deriving DecidableEq

/-- `detect_column_drift`: (new columns, missing columns), with system
columns (leading underscore) excluded. -/
def detect_column_drift (dfCols : List String) (m : SheetMapping) :
    List String × List String :=
  let current := (dfCols.map (fun c => Sanitize.sanitize_name c)).dedup
  let saved := (m.column_mappings.map (fun p => p.1)).dedup
  let newCols := (current.filter (fun c => ¬ c ∈ saved)).filter
    (fun c => ¬ strStartsWith c "_")
  let missingCols := (saved.filter (fun c => ¬ c ∈ current)).filter
    (fun c => ¬ strStartsWith c "_")
  (newCols, missingCols)

/-- One iteration of the `for col in drift['new_cols']` loop: identity
mapping plus empty description, skipping columns already in the local
`column_mappings` dict. -/
def driftStep (acc : SheetMapping × List (String × String)) (col : String) :
    SheetMapping × List (String × String) :=
  if acc.2.any (fun p => p.1 = col) then acc
  else
    ({ acc.1 with
        column_mappings := dictInsert acc.1.column_mappings col col,
        column_descriptions := dictInsert acc.1.column_descriptions col "" },
     dictInsert acc.2 col col)

/-- The drift block of `load_dataframe` (lines 285–302): run only when a
mapping is supplied and it already has column mappings; adds identity
entries and empty descriptions for new columns, bumps
`mappings_version` once, clears `last_enriched`. -/
def applyDrift (m : SheetMapping) (columnMappings : List (String × String))
    (dfCols : List String) : SheetMapping × List (String × String) :=
  if m.column_mappings ≠ [] then
    let newCols := (detect_column_drift dfCols m).1
    if newCols ≠ [] then
      let step := newCols.foldl driftStep (m, columnMappings)
      ({ step.1 with
          mappings_version := step.1.mappings_version + 1,
          last_enriched := none },
       step.2)
    else (m, columnMappings)
  else (m, columnMappings)

/-- The learned sanitized-to-canonical dict returned to the caller
(line 433). -/
def learnedMappings (columnMappings : List (String × String)) (origCols : List String) :
    List (String × String) :=
  origCols.foldl
    (fun acc c =>
      let s := Sanitize.sanitize_name c
      dictInsert acc s (lookupD columnMappings s s))
    []

def periodTruthy : Option String → Bool
  | none => false
  | some p => p ≠ ""

structure LoadResult where
  db : DB
  mapping : Option SheetMapping
  rowsLoaded : Nat
  learned : List (String × String)
  types : List (String × String)
  deriving DecidableEq

/-- The updated sheet mapping after the drift phase. -/
def driftMapping (sheetMapping : Option SheetMapping)
    (columnMappings : List (String × String)) (dfCols : List String) :
    Option SheetMapping :=
  match sheetMapping with
  | some m => some (applyDrift m columnMappings dfCols).1
  | none => none

/-- The column-mappings dict after the drift phase (the drift loop also
extends the local `column_mappings` with the identity entries). -/
def effectiveMappings (sheetMapping : Option SheetMapping)
    (columnMappings : List (String × String)) (dfCols : List String) :
    List (String × String) :=
  match sheetMapping with
  | some m => (applyDrift m columnMappings dfCols).2
  | none => columnMappings

/-- STEPS 3–4 against the store (lines 370–430): `CREATE TABLE IF NOT
EXISTS`, snapshot `information_schema`, `ADD COLUMN` for batch columns
missing on the destination, period-scoped `DELETE`, empty-string fix,
COPY. -/
def storePhase (db : DB) (period : Option String)
    (extractorTypes : List (String × String)) (df4 : PyDataFrame) : PgTable :=
  let types := columnTypes extractorTypes df4
  let t0 := ensureSchema db types df4.cols
  let existing := t0.cols.map (fun c => c.name)
  let t1 := addMissing t0 types df4.cols existing
  let t2 := if periodTruthy period ∧ "period" ∈ existing then
      deletePeriod t1 (period.getD "") else t1
  insertRows t2 (fixEmptyNumeric types df4)

/-- `load_dataframe` (lines 247–435): drift phase, empty-input early
returns, the once-computed column list, then the store phase. -/
def load_dataframe (db : DB) (df : PyDataFrame) (period : Option String)
    (columnMappings : List (String × String)) (extractorTypes : List (String × String))
    (sheetMapping : Option SheetMapping) : LoadResult :=
  let m' := driftMapping sheetMapping columnMappings df.cols
  let cm := effectiveMappings sheetMapping columnMappings df.cols
  if df.isEmpty then ⟨db, m', 0, [], []⟩ else
  if (dropAllNaCols (dropAllNaRows df)).isEmpty then ⟨db, m', 0, [], []⟩ else
  ⟨some (storePhase db period extractorTypes (finalDf cm period df)), m',
   (fixEmptyNumeric (columnTypes extractorTypes (finalDf cm period df))
     (finalDf cm period df)).rows.length,
   learnedMappings cm (prepareDf df).cols,
   columnTypes extractorTypes (finalDf cm period df)⟩

/-! ### Claim C1: DDL and COPY draw from the one renamed column list -/

/-- The ordered column list the `CREATE TABLE` column definitions are
generated from (the `for col in df.columns` loop of STEP 2–3). -/
def ddlColumnList (columnMappings : List (String × String)) (period : Option String)
    (df : PyDataFrame) : List String :=
  (finalDf columnMappings period df).cols

/-- The ordered column list the COPY statement quotes (line 422), read
from the DataFrame after the empty-string-to-NULL fix. -/
def copyColumnList (columnMappings : List (String × String)) (period : Option String)
    (extractorTypes : List (String × String)) (df : PyDataFrame) : List String :=
  (fixEmptyNumeric (columnTypes extractorTypes (finalDf columnMappings period df))
    (finalDf columnMappings period df)).cols

/-- The columns the `ADD COLUMN` loop issues, against the
`information_schema` snapshot (line 394). -/
def alterAddList (columnMappings : List (String × String)) (period : Option String)
    (df : PyDataFrame) (existing : List String) : List String :=
  (finalDf columnMappings period df).cols.filter (fun c => ¬ c ∈ existing)

/-- C1: within one `load_dataframe` call the DDL column list, the ADD
COLUMN list and the COPY column list are all drawn from the same
once-computed renamed column list — the COPY list is identical to the
DDL list, and the ADD list is its filter against the destination
snapshot. -/
theorem C1_ddl_copy_same_columns (columnMappings : List (String × String))
    (period : Option String) (extractorTypes : List (String × String))
    (df : PyDataFrame) (existing : List String) :
    copyColumnList columnMappings period extractorTypes df =
      ddlColumnList columnMappings period df ∧
    alterAddList columnMappings period df existing =
      (ddlColumnList columnMappings period df).filter (fun c => ¬ c ∈ existing) :=
  ⟨rfl, rfl⟩

/-! ### Claim C9: existing destination columns are never dropped or altered -/

theorem deletePeriod_cols (t : PgTable) (p : String) : (deletePeriod t p).cols = t.cols := by
  unfold deletePeriod
  cases t.cols.findIdx? (fun c => c.name = "period") <;> rfl

theorem addMissing_cols (types : List (String × String)) (cols : List String) :
    ∀ (t : PgTable) (existing : List String),
    (addMissing t types cols existing).cols =
      t.cols ++ (cols.filter (fun c => ¬ c ∈ existing)).map
        (fun c => (⟨c, lookupD types c "TEXT"⟩ : PgColumn)) := by
  induction cols with
  | nil => intro t ex; simp [addMissing]
  | cons c cs ih =>
    intro t ex
    simp only [addMissing, List.foldl_cons] at ih ⊢
    by_cases hc : c ∈ ex
    · rw [if_pos hc, ih t ex, List.filter_cons_of_neg (by simpa using hc)]
    · rw [if_neg hc, ih (addColumn t ⟨c, lookupD types c "TEXT"⟩) ex,
        List.filter_cons_of_pos (by simpa using hc)]
      simp [addColumn]

/-- C9 (frame effect): when the destination table exists, a load leaves
every existing destination column in place, unaltered and in order; the
only schema change is appending columns that are in the batch's final
column list and absent from the destination. -/
theorem C9_never_drop_existing_columns (t : PgTable) (df : PyDataFrame)
    (period : Option String) (columnMappings extractorTypes : List (String × String))
    (sheetMapping : Option SheetMapping) :
    ∃ (t' : PgTable) (added : List PgColumn),
      (load_dataframe (some t) df period columnMappings extractorTypes sheetMapping).db =
        some t' ∧
      t'.cols = t.cols ++ added ∧
      ∀ c ∈ added,
        c.name ∈ (finalDf (effectiveMappings sheetMapping columnMappings df.cols)
          period df).cols ∧
        ¬ c.name ∈ t.cols.map (fun d => d.name) := by
  unfold load_dataframe
  by_cases h1 : df.isEmpty
  · refine ⟨t, [], ?_, by simp, by simp⟩
    simp only [h1, if_true]
  by_cases h2 : (dropAllNaCols (dropAllNaRows df)).isEmpty
  · refine ⟨t, [], ?_, by simp, by simp⟩
    simp only [h1, h2, if_true, if_false, Bool.false_eq_true]
  set cm := effectiveMappings sheetMapping columnMappings df.cols with hcm
  set F := finalDf cm period df with hF
  set types := columnTypes extractorTypes F with htys
  refine ⟨storePhase (some t) period extractorTypes F,
    (F.cols.filter (fun c => ¬ c ∈ t.cols.map (fun d => d.name))).map
      (fun c => (⟨c, lookupD types c "TEXT"⟩ : PgColumn)), ?_, ?_, ?_⟩
  · simp only [h1, h2, if_false, Bool.false_eq_true]
  · show (storePhase (some t) period extractorTypes F).cols = _
    unfold storePhase
    dsimp only [ensureSchema, insertRows]
    by_cases hdel : periodTruthy period ∧ "period" ∈ t.cols.map (fun c => c.name)
    · rw [if_pos hdel, deletePeriod_cols, addMissing_cols]
    · rw [if_neg hdel, addMissing_cols]
  · intro c hc
    simp only [List.mem_map] at hc
    obtain ⟨n, hn, rfl⟩ := hc
    have := List.mem_filter.mp hn
    exact ⟨this.1, by simpa using this.2⟩

/-! ### Claim C3: drift bumps the version exactly once and adds identity entries -/

theorem sanitize_startsWith_underscore (s : String) :
    strStartsWith (Sanitize.sanitize_name s) "_" = false := by
  have hshape := Sanitize.sanitizeChars_shape s.data
  obtain ⟨c, cs, hl⟩ := List.exists_cons_of_ne_nil hshape.ne
  have hh := hshape.head
  rw [hl] at hh
  have hca : Sanitize.isLowerAlpha c = true := by simpa [Sanitize.headAlpha] using hh
  have hcne : c ≠ '_' := Sanitize.lowerAlpha_ne_und hca
  show ("_".data.isPrefixOf (Sanitize.sanitizeChars s.data)) = false
  rw [hl, show "_".data = ['_'] from rfl]
  simp only [List.isPrefixOf, Bool.and_eq_false_iff, beq_eq_false_iff_ne, ne_eq]
  exact Or.inl (fun he => hcne he.symm)

theorem find?_overwrite (k v : String) : ∀ (m : List (String × String)),
    m.any (fun p => p.1 = k) = true →
    ((m.map (fun p => if p.1 = k then (k, v) else p)).find? (fun p => p.1 = k)) = some (k, v)
  | [], h => by cases h
  | a :: as, h => by
    by_cases ha : a.1 = k
    · simp [List.find?_cons, ha]
    · have h' : as.any (fun p => p.1 = k) = true := by
        simpa [List.any_cons, ha] using h
      simpa [List.find?_cons, ha] using find?_overwrite k v as h'

theorem lookup?_dictInsert_self (m : List (String × String)) (k v : String) :
    lookup? (dictInsert m k v) k = some v := by
  unfold dictInsert
  by_cases h : m.any (fun p => p.1 = k)
  · rw [if_pos h]
    unfold lookup?
    rw [find?_overwrite k v m h]
    rfl
  · rw [if_neg h]
    unfold lookup?
    have hnone : m.find? (fun p => p.1 = k) = none := by
      rw [List.find?_eq_none]
      intro p hp hpk
      exact h (List.any_eq_true.mpr ⟨p, hp, hpk⟩)
    rw [List.find?_append, hnone]
    simp [List.find?_cons]

theorem find?_overwrite_ne (k v c : String) (hck : c ≠ k) : ∀ (m : List (String × String)),
    ((m.map (fun p => if p.1 = k then (k, v) else p)).find? (fun p => p.1 = c)) =
      m.find? (fun p => p.1 = c)
  | [] => rfl
  | a :: as => by
    have hkc : ¬ k = c := fun he => hck he.symm
    by_cases ha : a.1 = k
    · have hac : ¬ a.1 = c := by rw [ha]; exact hkc
      simp only [List.map_cons, if_pos ha, List.find?_cons]
      simp [hkc, hac, find?_overwrite_ne k v c hck as]
    · simp only [List.map_cons, if_neg ha, List.find?_cons]
      by_cases hac : a.1 = c
      · simp [hac]
      · simp [hac, find?_overwrite_ne k v c hck as]

theorem lookup?_dictInsert_ne (m : List (String × String)) (k v c : String) (h : c ≠ k) :
    lookup? (dictInsert m k v) c = lookup? m c := by
  have hkc : ¬ k = c := fun he => h he.symm
  unfold dictInsert lookup?
  by_cases hany : m.any (fun p => p.1 = k)
  · rw [if_pos hany, find?_overwrite_ne k v c h m]
  · rw [if_neg hany, List.find?_append]
    have hsingle : List.find? (fun p => p.1 = c) [(k, v)] = none := by
      simp [List.find?_cons, hkc]
    rw [hsingle]
    cases m.find? (fun p => p.1 = c) <;> rfl

theorem any_dictInsert_of_any (m : List (String × String)) (k v c : String)
    (h : m.any (fun p => p.1 = c) = true) :
    (dictInsert m k v).any (fun p => p.1 = c) = true := by
  unfold dictInsert
  by_cases hany : m.any (fun p => p.1 = k)
  · rw [if_pos hany]
    obtain ⟨p, hp, hpk⟩ := List.any_eq_true.mp h
    refine List.any_eq_true.mpr ⟨if p.1 = k then (k, v) else p, List.mem_map.mpr ⟨p, hp, rfl⟩, ?_⟩
    by_cases hpk' : p.1 = k
    · rw [if_pos hpk']
      simp only [decide_eq_true_eq] at hpk ⊢
      rw [← hpk']
      exact hpk
    · rw [if_neg hpk']
      exact hpk
  · rw [if_neg hany, List.any_append, h]
    rfl

theorem any_dictInsert_self (m : List (String × String)) (k v : String) :
    (dictInsert m k v).any (fun p => p.1 = k) = true := by
  unfold dictInsert
  by_cases hany : m.any (fun p => p.1 = k)
  · rw [if_pos hany]
    obtain ⟨p, hp, hpk⟩ := List.any_eq_true.mp hany
    simp only [decide_eq_true_eq] at hpk
    refine List.any_eq_true.mpr ⟨(k, v), List.mem_map.mpr ⟨p, hp, by rw [if_pos hpk]⟩, by simp⟩
  · rw [if_neg hany, List.any_append]
    simp

/-- What the drift loop guarantees for a processed new column. -/
def Established (acc : SheetMapping × List (String × String)) (c : String) : Prop :=
  lookup? acc.1.column_mappings c = some c ∧
  lookup? acc.1.column_descriptions c = some "" ∧
  acc.2.any (fun p => p.1 = c) = true

theorem driftStep_eq_of_not_any {acc : SheetMapping × List (String × String)} {d : String}
    (h : acc.2.any (fun p => p.1 = d) = false) :
    driftStep acc d =
      ({ acc.1 with
          column_mappings := dictInsert acc.1.column_mappings d d,
          column_descriptions := dictInsert acc.1.column_descriptions d "" },
       dictInsert acc.2 d d) := by
  unfold driftStep
  rw [if_neg (by simp [h])]

theorem driftStep_established {acc : SheetMapping × List (String × String)} {c : String}
    (h : Established acc c) (d : String) : Established (driftStep acc d) c := by
  by_cases hany : acc.2.any (fun p => p.1 = d)
  · unfold driftStep
    rw [if_pos hany]
    exact h
  · rw [driftStep_eq_of_not_any (Bool.eq_false_iff.mpr hany)]
    have hdc : c ≠ d := by
      intro he
      subst he
      exact hany h.2.2
    refine ⟨?_, ?_, any_dictInsert_of_any _ _ _ _ h.2.2⟩
    · show lookup? (dictInsert acc.1.column_mappings d d) c = some c
      rw [lookup?_dictInsert_ne _ _ _ _ hdc]
      exact h.1
    · show lookup? (dictInsert acc.1.column_descriptions d "") c = some ""
      rw [lookup?_dictInsert_ne _ _ _ _ hdc]
      exact h.2.1

theorem driftFold_established (cols : List String) :
    ∀ (acc : SheetMapping × List (String × String)) (c : String),
    Established acc c → Established (cols.foldl driftStep acc) c := by
  induction cols with
  | nil => intro acc c h; exact h
  | cons a as ih =>
    intro acc c h
    rw [List.foldl_cons]
    exact ih _ _ (driftStep_established h a)

theorem driftStep_version (acc : SheetMapping × List (String × String)) (d : String) :
    (driftStep acc d).1.mappings_version = acc.1.mappings_version := by
  unfold driftStep
  split <;> rfl

theorem driftFold_version (cols : List String) :
    ∀ acc, ((cols.foldl driftStep acc).1.mappings_version = acc.1.mappings_version) := by
  induction cols with
  | nil => intro acc; rfl
  | cons a as ih =>
    intro acc
    rw [List.foldl_cons, ih, driftStep_version]

theorem driftFold_establishes (cols : List String) :
    ∀ acc, cols.Nodup → (∀ c ∈ cols, acc.2.any (fun p => p.1 = c) = false) →
    ∀ c ∈ cols, Established (cols.foldl driftStep acc) c := by
  induction cols with
  | nil => intro acc _ _ c hc; cases hc
  | cons a as ih =>
    intro acc hnd hfree c hc
    rw [List.foldl_cons]
    have hfa : acc.2.any (fun p => p.1 = a) = false := hfree a (List.mem_cons_self _ _)
    have hstep := driftStep_eq_of_not_any hfa
    rcases List.mem_cons.mp hc with rfl | hcas
    · apply driftFold_established
      rw [hstep]
      exact ⟨lookup?_dictInsert_self _ _ _, lookup?_dictInsert_self _ _ _,
        any_dictInsert_self _ _ _⟩
    · refine ih _ (List.Nodup.of_cons hnd) ?_ c hcas
      intro d hd
      rw [hstep]
      show (dictInsert acc.2 a a).any (fun p => p.1 = d) = false
      have hda : ¬ a = d := by
        intro he
        subst he
        exact (List.nodup_cons.mp hnd).1 hd
      unfold dictInsert
      rw [if_neg (by simp [hfa]), List.any_append]
      simp [hfree d (List.mem_cons_of_mem _ hd), hda]

theorem any_mappings_driftStep {acc : SheetMapping × List (String × String)} {c : String}
    (h : acc.1.column_mappings.any (fun p => p.1 = c) = true) (d : String) :
    (driftStep acc d).1.column_mappings.any (fun p => p.1 = c) = true := by
  unfold driftStep
  split
  · exact h
  · exact any_dictInsert_of_any _ _ _ _ h

theorem any_mappings_driftFold (cols : List String) :
    ∀ acc c, acc.1.column_mappings.any (fun p => p.1 = c) = true →
      ((cols.foldl driftStep acc).1.column_mappings.any (fun p => p.1 = c)) = true := by
  induction cols with
  | nil => intro acc c h; exact h
  | cons a as ih =>
    intro acc c h
    rw [List.foldl_cons]
    exact ih _ _ (any_mappings_driftStep h a)

theorem load_mapping_eq (db : DB) (df : PyDataFrame) (period : Option String)
    (columnMappings extractorTypes : List (String × String)) (sm : Option SheetMapping) :
    (load_dataframe db df period columnMappings extractorTypes sm).mapping =
      driftMapping sm columnMappings df.cols := by
  unfold load_dataframe
  by_cases h1 : df.isEmpty
  · rw [if_pos h1]
  · rw [if_neg h1]
    by_cases h2 : (dropAllNaCols (dropAllNaRows df)).isEmpty
    · rw [if_pos h2]
    · rw [if_neg h2]

theorem any_of_lookup?_eq_some {m : List (String × String)} {c v : String}
    (h : lookup? m c = some v) : m.any (fun p => p.1 = c) = true := by
  unfold lookup? at h
  cases hf : m.find? (fun p => p.1 = c) with
  | none => rw [hf] at h; cases h
  | some p =>
    exact List.any_eq_true.mpr ⟨p, List.mem_of_find?_eq_some hf,
      @List.find?_some _ (fun q : String × String => decide (q.1 = c)) p m hf⟩

theorem applyDrift_eq (m : SheetMapping) (cm : List (String × String)) (dfCols : List String)
    (hm : m.column_mappings ≠ []) (hnew : (detect_column_drift dfCols m).1 ≠ []) :
    applyDrift m cm dfCols =
      ({ ((detect_column_drift dfCols m).1.foldl driftStep (m, cm)).1 with
          mappings_version :=
            ((detect_column_drift dfCols m).1.foldl driftStep (m, cm)).1.mappings_version + 1,
          last_enriched := none },
       ((detect_column_drift dfCols m).1.foldl driftStep (m, cm)).2) := by
  unfold applyDrift
  rw [if_pos hm]
  dsimp only
  rw [if_pos hnew]

theorem newCols_nodup (dfCols : List String) (m : SheetMapping) :
    (detect_column_drift dfCols m).1.Nodup := by
  unfold detect_column_drift
  exact ((List.nodup_dedup _).filter _).filter _

theorem mem_newCols {dfCols : List String} {m : SheetMapping} {x : String}
    (hx : x ∈ dfCols)
    (habs : ¬ Sanitize.sanitize_name x ∈ m.column_mappings.map (fun p => p.1)) :
    Sanitize.sanitize_name x ∈ (detect_column_drift dfCols m).1 := by
  unfold detect_column_drift
  refine List.mem_filter.mpr ⟨List.mem_filter.mpr
    ⟨List.mem_dedup.mpr (List.mem_map.mpr ⟨x, hx, rfl⟩), ?_⟩, ?_⟩
  · simpa using fun h => habs (List.mem_dedup.mp h)
  · simp [sanitize_startsWith_underscore]

theorem applyDrift_bump (m : SheetMapping) (dfCols : List String)
    (hm : m.column_mappings ≠ [])
    (hnew : (detect_column_drift dfCols m).1 ≠ []) :
    (applyDrift m [] dfCols).1.mappings_version = m.mappings_version + 1 ∧
    ∀ c ∈ (detect_column_drift dfCols m).1,
      lookup? (applyDrift m [] dfCols).1.column_mappings c = some c ∧
      lookup? (applyDrift m [] dfCols).1.column_descriptions c = some "" := by
  rw [applyDrift_eq m [] dfCols hm hnew]
  constructor
  · show ((detect_column_drift dfCols m).1.foldl driftStep (m, [])).1.mappings_version + 1 = _
    rw [driftFold_version]
  · intro c hc
    have hest := driftFold_establishes (detect_column_drift dfCols m).1 (m, [])
      (newCols_nodup dfCols m) (fun c _ => rfl) c hc
    exact ⟨hest.1, hest.2.1⟩

theorem applyDrift_stable (m : SheetMapping) (dfCols : List String)
    (cm₂ : List (String × String))
    (hm : m.column_mappings ≠ [])
    (hnew : (detect_column_drift dfCols m).1 ≠ []) :
    (applyDrift (applyDrift m [] dfCols).1 cm₂ dfCols).1 = (applyDrift m [] dfCols).1 := by
  set m₂ := (applyDrift m [] dfCols).1 with hm₂
  have hmap2 : m₂.column_mappings =
      ((detect_column_drift dfCols m).1.foldl driftStep (m, [])).1.column_mappings := by
    rw [hm₂, applyDrift_eq m [] dfCols hm hnew]
  have hsub : ∀ c ∈ (dfCols.map (fun s => Sanitize.sanitize_name s)).dedup,
      m₂.column_mappings.any (fun p => p.1 = c) = true := by
    intro c hc
    by_cases hcs : c ∈ m.column_mappings.map (fun p => p.1)
    · obtain ⟨p, hp, hpk⟩ := List.mem_map.mp hcs
      rw [hmap2]
      exact any_mappings_driftFold _ (m, []) c
        (List.any_eq_true.mpr ⟨p, hp, by simp [hpk]⟩)
    · obtain ⟨s, hs, hcs'⟩ := List.mem_map.mp (List.mem_dedup.mp hc)
      have hcnew : c ∈ (detect_column_drift dfCols m).1 := by
        subst hcs'
        exact mem_newCols hs hcs
      have hest := driftFold_establishes (detect_column_drift dfCols m).1 (m, [])
        (newCols_nodup dfCols m) (fun c _ => rfl) c hcnew
      rw [hmap2]
      exact any_of_lookup?_eq_some hest.1
  have hfilter : ((dfCols.map (fun s => Sanitize.sanitize_name s)).dedup.filter
      (fun c => ¬ c ∈ (m₂.column_mappings.map (fun p => p.1)).dedup)) = [] := by
    rw [List.filter_eq_nil_iff]
    intro c hc
    have := hsub c hc
    obtain ⟨p, hp, hpk⟩ := List.any_eq_true.mp this
    simp only [decide_eq_true_eq] at hpk
    simp only [decide_not, Bool.not_eq_true', Bool.not_eq_false, decide_eq_true_eq]
    exact List.mem_dedup.mpr (List.mem_map.mpr ⟨p, hp, hpk⟩)
  have hempty : (detect_column_drift dfCols m₂).1 = [] := by
    unfold detect_column_drift
    dsimp only
    rw [hfilter]
    rfl
  unfold applyDrift
  by_cases hm2 : m₂.column_mappings ≠ []
  · rw [if_pos hm2]
    dsimp only
    rw [if_neg (by rw [hempty]; simp)]
  · rw [if_neg hm2]

/-- Frame and mapping for the counterexample to C3 as stated: a saved
mapping whose `column_mappings` dict is empty. -/
def c3Frame : PyDataFrame := ⟨["X"], [[some "1"]]⟩

/-- C3 counterexample: with a saved mapping whose `column_mappings` is
empty, the DataFrame column `X` is absent from the mapping, yet the load
does not bump `mappings_version` at all — the drift block is skipped
entirely when the saved mapping has no column mappings. -/
theorem C3_counterexample :
    ¬ ((load_dataframe none c3Frame (some "2024-11") [] [] (some {})).mapping.map
        (fun m => m.mappings_version) =
      some (({} : SheetMapping).mappings_version + 1)) := by
  decide

/-- C3 (amended: the saved mapping's `column_mappings` must be
non-empty, since the drift block is skipped for an empty dict): a call
to `load_dataframe` seeing a column whose sanitized name is absent from
the saved mapping bumps `mappings_version` by exactly 1 no matter how
many new columns appear, adds an identity mapping and an empty
description for every new column, and a subsequent call with the updated
mapping leaves `mappings_version` unchanged. -/
theorem C3_drift_version_bump (db : DB) (df : PyDataFrame) (period : Option String)
    (et : List (String × String)) (m : SheetMapping) (x : String)
    (hm : m.column_mappings ≠ [])
    (hx : x ∈ df.cols)
    (habs : ¬ Sanitize.sanitize_name x ∈ m.column_mappings.map (fun p => p.1)) :
    ∃ m₂ : SheetMapping,
      (load_dataframe db df period [] et (some m)).mapping = some m₂ ∧
      m₂.mappings_version = m.mappings_version + 1 ∧
      (∀ c ∈ (detect_column_drift df.cols m).1,
        lookup? m₂.column_mappings c = some c ∧
        lookup? m₂.column_descriptions c = some "") ∧
      ∀ db₂ : DB,
        (load_dataframe db₂ df period [] et (some m₂)).mapping = some m₂ := by
  have hnew : (detect_column_drift df.cols m).1 ≠ [] :=
    List.ne_nil_of_mem (mem_newCols hx habs)
  obtain ⟨hbump, hentries⟩ := applyDrift_bump m df.cols hm hnew
  refine ⟨(applyDrift m [] df.cols).1, ?_, hbump, hentries, ?_⟩
  · rw [load_mapping_eq]
    rfl
  · intro db₂
    rw [load_mapping_eq]
    show some (applyDrift (applyDrift m [] df.cols).1 [] df.cols).1 = _
    rw [applyDrift_stable m df.cols [] hm hnew]

/-- Instantiation of C3's hypotheses: a mapping already holding
`org_code`, a frame with one new column `X`. -/
theorem C3_witness :
    ∃ m₂ : SheetMapping,
      (load_dataframe none c3Frame (some "2024-11") [] []
        (some { column_mappings := [("org_code", "org_code")] })).mapping = some m₂ ∧
      m₂.mappings_version =
        ({ column_mappings := [("org_code", "org_code")] } : SheetMapping).mappings_version + 1 ∧
      (∀ c ∈ (detect_column_drift c3Frame.cols
          { column_mappings := [("org_code", "org_code")] }).1,
        lookup? m₂.column_mappings c = some c ∧
        lookup? m₂.column_descriptions c = some "") ∧
      ∀ db₂ : DB,
        (load_dataframe db₂ c3Frame (some "2024-11") [] [] (some m₂)).mapping = some m₂ :=
  C3_drift_version_bump none c3Frame (some "2024-11") []
    { column_mappings := [("org_code", "org_code")] } "X" (by decide) (by decide) (by decide)

/-! ### Claim C2: reloading the same period replaces, not duplicates -/

/-- Rows of a DataFrame are aligned with its column list. -/
def DfWf (df : PyDataFrame) : Prop := ∀ r ∈ df.rows, r.length = df.cols.length

/-- Rows of a table are aligned with its column list. -/
def TableWf (t : PgTable) : Prop := ∀ r ∈ t.rows, r.length = t.cols.length

def DbWf : DB → Prop
  | none => True
  | some t => TableWf t

theorem maskKeep_length_eq {α β : Type} :
    ∀ (mask : List Bool) (l₁ : List α) (l₂ : List β),
    l₁.length = l₂.length → (maskKeep mask l₁).length = (maskKeep mask l₂).length
  | [], _, _, _ => rfl
  | _ :: _, [], [], _ => rfl
  | _ :: _, [], _ :: _, h => by simp at h
  | _ :: _, _ :: _, [], h => by simp at h
  | b :: bs, a :: as, c :: cs, h => by
    have h' : as.length = cs.length := by simpa using h
    unfold maskKeep
    simp only [List.zip_cons_cons, List.filter_cons]
    cases b with
    | true =>
      simpa [maskKeep] using maskKeep_length_eq bs as cs h'
    | false =>
      simpa [maskKeep] using maskKeep_length_eq bs as cs h'

theorem dedupStep_length (acc : List String × List (String × Nat)) (col : String) :
    (dedupStep acc col).1.length = acc.1.length + 1 := by
  unfold dedupStep
  cases acc.2.find? (fun p => p.1 = col) <;> simp

theorem dedupFold_length (cols : List String) :
    ∀ acc, ((cols.foldl dedupStep acc).1.length = acc.1.length + cols.length) := by
  induction cols with
  | nil => intro acc; rfl
  | cons c cs ih =>
    intro acc
    rw [List.foldl_cons, ih, dedupStep_length, List.length_cons]
    omega

theorem dedupNames_length (cols : List String) : (dedupNames cols).length = cols.length := by
  unfold dedupNames
  rw [dedupFold_length]
  simp

theorem prepareDf_wf {df : PyDataFrame} (h : DfWf df) : DfWf (prepareDf df) := by
  have h1 : DfWf (dropAllNaRows df) := fun r hr => h r (List.mem_of_mem_filter hr)
  have h2 : DfWf (dropAllNaCols (dropAllNaRows df)) := by
    intro r hr
    obtain ⟨r₀, hr₀, rfl⟩ := List.mem_map.mp hr
    exact maskKeep_length_eq _ _ _ (h1 r₀ hr₀)
  intro r hr
  obtain ⟨r₀, hr₀, rfl⟩ := List.mem_map.mp hr
  exact maskKeep_length_eq _ _ _ (h2 r₀ hr₀)

theorem setPeriod_wf {df : PyDataFrame} (h : DfWf df) (p : String) :
    DfWf (setPeriod df p) := by
  unfold setPeriod
  cases hidx : df.cols.findIdx? (fun c => c = "period") with
  | some j =>
    intro r hr
    obtain ⟨r₀, hr₀, rfl⟩ := List.mem_map.mp hr
    simp [List.length_set, h r₀ hr₀]
  | none =>
    intro r hr
    obtain ⟨r₀, hr₀, rfl⟩ := List.mem_map.mp hr
    simp [h r₀ hr₀]

theorem renameDedupPeriod_wf {df : PyDataFrame} (h : DfWf df)
    (cm : List (String × String)) (period : Option String) :
    DfWf (renameDedupPeriod cm period df) := by
  have h2 : DfWf (renameCols cm df) := by
    intro r hr
    rw [show (renameCols cm df).cols.length = df.cols.length by simp [renameCols]]
    exact h r hr
  have h3 : DfWf (⟨dedupNames (renameCols cm df).cols, (renameCols cm df).rows⟩ : PyDataFrame) := by
    intro r hr
    rw [show (⟨dedupNames (renameCols cm df).cols, (renameCols cm df).rows⟩ : PyDataFrame).cols.length
      = (renameCols cm df).cols.length by simp [dedupNames_length]]
    exact h2 r hr
  match period with
  | none => exact h3
  | some p =>
    show DfWf (if p ≠ "" then
      setPeriod ⟨dedupNames (renameCols cm df).cols, (renameCols cm df).rows⟩ p
      else ⟨dedupNames (renameCols cm df).cols, (renameCols cm df).rows⟩)
    by_cases hp : p ≠ ""
    · rw [if_pos hp]
      exact setPeriod_wf h3 p
    · rw [if_neg hp]
      exact h3

theorem finalDf_wf {df : PyDataFrame} (h : DfWf df) (cm : List (String × String))
    (period : Option String) : DfWf (finalDf cm period df) :=
  renameDedupPeriod_wf (prepareDf_wf h) cm period

/-- What `df['period'] = p` guarantees: the frame is aligned, has a
`period` column, and the first `period` column carries `p` in every
row. -/
structure PeriodSet (p : String) (df : PyDataFrame) : Prop where
  wf : DfWf df
  mem : "period" ∈ df.cols
  val : ∀ j, df.cols.findIdx? (fun c => c = "period") = some j →
    ∀ r ∈ df.rows, cellAt r j = some p

theorem cellAt_set_self {r : List Cell} {j : Nat} (hj : j < r.length) (v : Cell) :
    cellAt (r.set j v) j = v := by
  unfold cellAt
  rw [List.get?_eq_getElem?, List.getElem?_set_self]
  · rfl
  · exact hj

theorem cellAt_concat_length {r : List Cell} (v : Cell) :
    cellAt (r ++ [v]) r.length = v := by
  unfold cellAt
  rw [List.get?_eq_getElem?, List.getElem?_append_right (le_refl _)]
  simp

theorem setPeriod_sets {df : PyDataFrame} (h : DfWf df) (p : String) :
    PeriodSet p (setPeriod df p) := by
  cases hidx : df.cols.findIdx? (fun c => c = "period") with
  | some j =>
    obtain ⟨hlt, hpred, _⟩ := List.findIdx?_eq_some_iff_getElem.mp hidx
    refine ⟨setPeriod_wf h p, ?_, ?_⟩
    · show "period" ∈ (setPeriod df p).cols
      unfold setPeriod
      rw [hidx]
      have hp : df.cols[j] = "period" := by simpa using hpred
      exact hp ▸ List.getElem_mem hlt
    · intro j' hj' r hr
      unfold setPeriod at hj' hr
      rw [hidx] at hj' hr
      simp only at hj' hr
      have hjj : j' = j := by
        rw [hidx] at hj'
        exact (Option.some.inj hj').symm
      subst hjj
      obtain ⟨r₀, hr₀, rfl⟩ := List.mem_map.mp hr
      exact cellAt_set_self (by rw [h r₀ hr₀]; exact hlt) _
  | none =>
    refine ⟨setPeriod_wf h p, ?_, ?_⟩
    · show "period" ∈ (setPeriod df p).cols
      unfold setPeriod
      rw [hidx]
      exact List.mem_append_right _ (List.mem_singleton.mpr rfl)
    · intro j' hj' r hr
      unfold setPeriod at hj' hr
      rw [hidx] at hj' hr
      simp only at hj' hr
      have hjlen : j' = df.cols.length := by
        rw [List.findIdx?_append, hidx] at hj'
        simp at hj'
        omega
      subst hjlen
      obtain ⟨r₀, hr₀, rfl⟩ := List.mem_map.mp hr
      rw [← h r₀ hr₀]
      exact cellAt_concat_length _

theorem renameDedupPeriod_period {df : PyDataFrame} (h : DfWf df)
    (cm : List (String × String)) (p : String) (hp : p ≠ "") :
    PeriodSet p (renameDedupPeriod cm (some p) df) := by
  have h2 : DfWf (renameCols cm df) := by
    intro r hr
    rw [show (renameCols cm df).cols.length = df.cols.length by simp [renameCols]]
    exact h r hr
  have h3 : DfWf (⟨dedupNames (renameCols cm df).cols, (renameCols cm df).rows⟩ : PyDataFrame) := by
    intro r hr
    rw [show (⟨dedupNames (renameCols cm df).cols, (renameCols cm df).rows⟩ : PyDataFrame).cols.length
      = (renameCols cm df).cols.length by simp [dedupNames_length]]
    exact h2 r hr
  show PeriodSet p (if p ≠ "" then setPeriod _ p else _)
  rw [if_pos hp]
  exact setPeriod_sets h3 p

theorem finalDf_period {df : PyDataFrame} (h : DfWf df) (cm : List (String × String))
    (p : String) (hp : p ≠ "") : PeriodSet p (finalDf cm (some p) df) :=
  renameDedupPeriod_period (prepareDf_wf h) cm p hp

theorem get?_of_cellAt_some {r : List Cell} {j : Nat} {p : String}
    (h : cellAt r j = some p) : r.get? j = some (some p) := by
  unfold cellAt at h
  cases hg : r.get? j with
  | none => rw [hg] at h; cases h
  | some v =>
    rw [hg] at h
    simp only [Option.getD_some] at h
    rw [h]

theorem fixRow_preserves {mask : List Bool} {r : List Cell} {j : Nat} {p : String}
    (hm : j < mask.length) (hv : cellAt r j = some p) (hp : p ≠ "") :
    cellAt ((mask.zip r).map (fun q => if q.1 ∧ q.2 = some "" then none else q.2)) j =
      some p := by
  have hrj : r.get? j = some (some p) := get?_of_cellAt_some hv
  obtain ⟨b, hb⟩ : ∃ b, mask.get? j = some b := by
    rw [List.get?_eq_getElem?, List.getElem?_eq_getElem hm]
    exact ⟨_, rfl⟩
  have hzip : (mask.zip r)[j]? = some (b, some p) := by
    rw [List.getElem?_zip_eq_some]
    rw [List.get?_eq_getElem?] at hb hrj
    exact ⟨hb, hrj⟩
  unfold cellAt
  rw [List.get?_eq_getElem?, List.getElem?_map, hzip]
  simp only [Option.map_some']
  rw [if_neg]
  · rfl
  · rintro ⟨_, he⟩
    exact hp (Option.some.inj he)

theorem alignRow_period {tcols : List PgColumn} {j : Nat}
    (hj : tcols.findIdx? (fun c => c.name = "period") = some j)
    {dfCols : List String} {j₀ : Nat}
    (hj₀ : dfCols.findIdx? (fun n => n = "period") = some j₀)
    (r : List Cell) :
    cellAt (alignRow tcols dfCols r) j = cellAt r j₀ := by
  obtain ⟨hlt, hpred, _⟩ := List.findIdx?_eq_some_iff_getElem.mp hj
  have hname : (tcols[j]).name = "period" := by simpa using hpred
  have hget : (alignRow tcols dfCols r).get? j =
      some (match dfCols.findIdx? (fun n => n = "period") with
        | some j' => cellAt r j'
        | none => none) := by
    unfold alignRow
    rw [List.get?_eq_getElem?, List.getElem?_map, List.getElem?_eq_getElem hlt]
    rw [Option.map_some', hname]
  rw [show cellAt (alignRow tcols dfCols r) j =
      ((alignRow tcols dfCols r).get? j).getD none from rfl, hget, hj₀]
  rfl

theorem cellAt_replicate_none (k i : Nat) :
    cellAt (List.replicate k (none : Cell)) i = none := by
  unfold cellAt
  cases hg : (List.replicate k (none : Cell)).get? i with
  | none => rfl
  | some v =>
    have hmem := List.get?_mem hg
    rw [List.eq_of_mem_replicate hmem]
    rfl

theorem cellAt_append_right {r s : List Cell} {j : Nat} (h : r.length ≤ j) :
    cellAt (r ++ s) j = cellAt s (j - r.length) := by
  unfold cellAt
  rw [List.get?_eq_getElem?, List.get?_eq_getElem?, List.getElem?_append_right h]

theorem addMissing_rows (types : List (String × String)) (cols : List String) :
    ∀ (t : PgTable) (ex : List String),
    (addMissing t types cols ex).rows =
      t.rows.map (fun r =>
        r ++ List.replicate ((cols.filter (fun c => ¬ c ∈ ex)).length) none) := by
  induction cols with
  | nil =>
    intro t ex
    simp [addMissing]
  | cons c cs ih =>
    intro t ex
    simp only [addMissing, List.foldl_cons] at ih ⊢
    by_cases hc : c ∈ ex
    · rw [if_pos hc, ih, List.filter_cons_of_neg (by simpa using hc)]
    · rw [if_neg hc, ih, List.filter_cons_of_pos (by simpa using hc)]
      show (addColumn t ⟨c, lookupD types c "TEXT"⟩).rows.map _ = _
      unfold addColumn
      rw [List.map_map]
      apply List.map_congr_left
      intro r _
      simp [List.length_cons, List.replicate_succ, List.append_assoc]

theorem addMissing_eq_self (types : List (String × String)) (cols : List String) :
    ∀ (t : PgTable) (ex : List String), (∀ c ∈ cols, c ∈ ex) →
    addMissing t types cols ex = t := by
  induction cols with
  | nil => intro t ex _; rfl
  | cons c cs ih =>
    intro t ex h
    simp only [addMissing, List.foldl_cons] at ih ⊢
    rw [if_pos (h c (List.mem_cons_self _ _))]
    exact ih t ex (fun d hd => h d (List.mem_cons_of_mem _ hd))

/-- One-step unfolding of `storePhase` as an equation usable by `rw`. -/
theorem storePhase_expand (db : DB) (p : Option String)
    (et : List (String × String)) (F : PyDataFrame) :
    storePhase db p et F =
      insertRows
        (if periodTruthy p ∧ "period" ∈
            (ensureSchema db (columnTypes et F) F.cols).cols.map (fun c => c.name) then
          deletePeriod
            (addMissing (ensureSchema db (columnTypes et F) F.cols) (columnTypes et F) F.cols
              ((ensureSchema db (columnTypes et F) F.cols).cols.map (fun c => c.name)))
            (p.getD "")
        else
          addMissing (ensureSchema db (columnTypes et F) F.cols) (columnTypes et F) F.cols
            ((ensureSchema db (columnTypes et F) F.cols).cols.map (fun c => c.name)))
        (fixEmptyNumeric (columnTypes et F) F) := rfl

theorem storePhase_idem (db : DB) (p : String) (et : List (String × String))
    (F : PyDataFrame) (hp : p ≠ "") (hdb : DbWf db) (hF : PeriodSet p F) :
    storePhase (some (storePhase db (some p) et F)) (some p) et F =
      storePhase db (some p) et F := by
  set types := columnTypes et F with htypes
  set t0 := ensureSchema db types F.cols with ht0
  set E1 := t0.cols.map (fun c => c.name) with hE1
  set t1 := addMissing t0 types F.cols E1 with ht1
  set F5 := fixEmptyNumeric types F with hF5
  set t2 := (if periodTruthy (some p) ∧ "period" ∈ E1 then
    deletePeriod t1 ((some p : Option String).getD "") else t1) with ht2
  set T := insertRows t2 F5 with hT
  have hTeq : storePhase db (some p) et F = T := rfl
  have hptruthy : periodTruthy (some p) = true := by simp [periodTruthy, hp]
  have ht2cols : t2.cols = t1.cols := by
    rw [ht2]
    split
    · exact deletePeriod_cols _ _
    · rfl
  have hTcols : T.cols = t1.cols := ht2cols
  have ht1cols : t1.cols = t0.cols ++ (F.cols.filter (fun c => ¬ c ∈ E1)).map
      (fun c => (⟨c, lookupD types c "TEXT"⟩ : PgColumn)) := addMissing_cols types F.cols t0 E1
  have hnames : T.cols.map (fun c => c.name) = E1 ++ F.cols.filter (fun c => ¬ c ∈ E1) := by
    rw [hTcols, ht1cols, List.map_append, List.map_map]
    congr 1
    exact List.map_id' _ |>.symm ▸ rfl
  have hsub : ∀ c ∈ F.cols, c ∈ T.cols.map (fun c => c.name) := by
    intro c hc
    rw [hnames]
    by_cases hcE : c ∈ E1
    · exact List.mem_append_left _ hcE
    · exact List.mem_append_right _ (List.mem_filter.mpr ⟨hc, by simpa using hcE⟩)
  have hperiodT : "period" ∈ T.cols.map (fun c => c.name) := hsub _ hF.mem
  obtain ⟨jstar, hjstar⟩ : ∃ j, T.cols.findIdx? (fun c => c.name = "period") = some j := by
    have hany : T.cols.any (fun c => c.name = "period") = true := by
      obtain ⟨c0, hc0, hc0n⟩ := List.mem_map.mp hperiodT
      exact List.any_eq_true.mpr ⟨c0, hc0, by simp [hc0n]⟩
    have hsome : (T.cols.findIdx? (fun c => c.name = "period")).isSome =
        T.cols.any (fun c => c.name = "period") := List.findIdx?_isSome
    rw [hany] at hsome
    exact Option.isSome_iff_exists.mp hsome
  obtain ⟨j0, hj0⟩ : ∃ j, F.cols.findIdx? (fun c => c = "period") = some j := by
    have hany : F.cols.any (fun c => c = "period") = true :=
      List.any_eq_true.mpr ⟨"period", hF.mem, by simp⟩
    have hsome : (F.cols.findIdx? (fun c => c = "period")).isSome =
        F.cols.any (fun c => c = "period") := List.findIdx?_isSome
    rw [hany] at hsome
    exact Option.isSome_iff_exists.mp hsome
  have hj0lt : j0 < F.cols.length := (List.findIdx?_eq_some_iff_getElem.mp hj0).1
  have hins : ∀ r ∈ F5.rows.map (alignRow t2.cols F5.cols), cellAt r jstar = some p := by
    intro r hr
    obtain ⟨r5, hr5, rfl⟩ := List.mem_map.mp hr
    have hjstar2 : t2.cols.findIdx? (fun c => c.name = "period") = some jstar := hjstar
    have hj0' : F5.cols.findIdx? (fun n => n = "period") = some j0 := hj0
    rw [alignRow_period hjstar2 hj0']
    obtain ⟨r4, hr4, rfl⟩ := List.mem_map.mp hr5
    exact fixRow_preserves (by simpa using hj0lt) (hF.val j0 hj0 r4 hr4) hp
  have ht2rows : ∀ r ∈ t2.rows, ¬ cellAt r jstar = some p := by
    by_cases hcond : "period" ∈ E1
    · have hc' : (periodTruthy (some p) = true ∧ "period" ∈ E1) := ⟨hptruthy, hcond⟩
      rw [ht2, if_pos hc']
      have hjstar1 : t1.cols.findIdx? (fun c => c.name = "period") = some jstar := by
        rw [← hTcols]
        exact hjstar
      unfold deletePeriod
      rw [hjstar1]
      intro r hr
      have hpred := List.of_mem_filter hr
      simpa using hpred
    · have hc' : ¬ (periodTruthy (some p) = true ∧ "period" ∈ E1) := fun h => hcond h.2
      rw [ht2, if_neg hc']
      rw [ht1, addMissing_rows]
      intro r hr
      obtain ⟨r0, hr0, rfl⟩ := List.mem_map.mp hr
      have hjbig : t0.cols.length ≤ jstar := by
        have hnone : t0.cols.findIdx? (fun c => c.name = "period") = none := by
          rw [List.findIdx?_eq_none_iff]
          intro c hcmem
          simp only [decide_eq_false_iff_not]
          intro hcn
          exact hcond (List.mem_map.mpr ⟨c, hcmem, hcn⟩)
        have hj1 : t1.cols.findIdx? (fun c => c.name = "period") = some jstar := by
          rw [← hTcols]
          exact hjstar
        rw [ht1cols, List.findIdx?_append, hnone, Option.none_or] at hj1
        obtain ⟨i, _, hi2⟩ := Option.map_eq_some'.mp hj1
        omega
      have hr0len : r0.length = t0.cols.length := by
        cases db with
        | none =>
          exfalso
          rw [ht0] at hr0
          cases hr0
        | some t => exact hdb r0 hr0
      rw [cellAt_append_right (by omega), cellAt_replicate_none]
      simp
  rw [hTeq, storePhase_expand]
  have hens : ensureSchema (some T) (columnTypes et F) F.cols = T := rfl
  rw [hens, if_pos ⟨hptruthy, hperiodT⟩,
    addMissing_eq_self (columnTypes et F) F.cols T (T.cols.map (fun c => c.name)) hsub]
  show insertRows (deletePeriod T p) F5 = T
  have hdelT : deletePeriod T p =
      ⟨T.cols, T.rows.filter (fun r => ¬ cellAt r jstar = some p)⟩ := by
    unfold deletePeriod
    rw [hjstar]
  rw [hdelT]
  have hTrows : T.rows = t2.rows ++ F5.rows.map (alignRow t2.cols F5.cols) := rfl
  show (⟨T.cols, ((⟨T.cols, T.rows.filter (fun r => ¬ cellAt r jstar = some p)⟩ :
      PgTable)).rows ++ F5.rows.map (alignRow T.cols F5.cols)⟩ : PgTable) = T
  have hfilter : T.rows.filter (fun r => ¬ cellAt r jstar = some p) = t2.rows := by
    rw [hTrows, List.filter_append]
    rw [List.filter_eq_self.mpr (fun r hr => by simpa using ht2rows r hr),
      List.filter_eq_nil_iff.mpr (fun r hr => by simpa using hins r hr)]
    simp
  rw [show ((⟨T.cols, T.rows.filter (fun r => ¬ cellAt r jstar = some p)⟩ :
      PgTable)).rows = T.rows.filter (fun r => ¬ cellAt r jstar = some p) from rfl, hfilter]
  rfl

theorem load_db_cases (db : DB) (df : PyDataFrame) (period : Option String)
    (cm et : List (String × String)) :
    (load_dataframe db df period cm et none).db =
      if (df.isEmpty = true ∨ (dropAllNaCols (dropAllNaRows df)).isEmpty = true) then db
      else some (storePhase db period et (finalDf cm period df)) := by
  unfold load_dataframe
  by_cases h1 : df.isEmpty
  · rw [if_pos h1, if_pos (Or.inl h1)]
  · rw [if_neg h1]
    by_cases h2 : (dropAllNaCols (dropAllNaRows df)).isEmpty
    · rw [if_pos h2, if_pos (Or.inr h2)]
    · rw [if_neg h2, if_neg (by rintro (h | h); exacts [h1 h, h2 h])]
      rfl

/-- C2: with a non-empty period, loading the same aligned DataFrame
twice into the destination leaves exactly the state of loading it once —
the second call deletes the rows of that period (all of which were
written by the first call, and none of the pre-existing rows) and
re-inserts the identical rows, so content is replaced, not
duplicated. -/
theorem C2_idempotent_reload (db : DB) (df : PyDataFrame) (p : String)
    (cm et : List (String × String)) (hp : p ≠ "") (hdb : DbWf db) (hdf : DfWf df) :
    (load_dataframe (load_dataframe db df (some p) cm et none).db df (some p) cm et none).db =
      (load_dataframe db df (some p) cm et none).db := by
  rw [load_db_cases db df (some p) cm et]
  by_cases hempty : (df.isEmpty = true ∨ (dropAllNaCols (dropAllNaRows df)).isEmpty = true)
  · rw [if_pos hempty, load_db_cases db df (some p) cm et, if_pos hempty]
  · rw [if_neg hempty,
      load_db_cases (some (storePhase db (some p) et (finalDf cm (some p) df))) df
        (some p) cm et,
      if_neg hempty]
    exact congrArg some (storePhase_idem db p et (finalDf cm (some p) df) hp hdb
      (finalDf_period hdf cm p hp))

/-- Witness frame for C2: a two-column, two-row grid. -/
def c2Frame : PyDataFrame :=
  ⟨["Org Code", "Value"], [[some "RJ1", some "12.5"], [some "RXH", some ""]]⟩

theorem C2_witness :
    (load_dataframe (load_dataframe none c2Frame (some "2024-11") [] [] none).db
        c2Frame (some "2024-11") [] [] none).db =
      (load_dataframe none c2Frame (some "2024-11") [] [] none).db :=
  C2_idempotent_reload none c2Frame "2024-11" [] [] (by decide) trivial
    (by unfold DfWf; decide)

end DataWarp.Loader

namespace DataWarp.Extractor

/-!
## Sheet structure extraction (`src/datawarp/loader/extractor.py`)

A sheet is modelled as a row-major grid of optional strings (`none` for
an empty cell; a cell value is its string rendering) plus the merged
ranges.  The openpyxl row cache is read-through and unobservable, so it
is not modelled.  Ratio thresholds are written in cross-multiplied
integer form; the comment at each one records the source expression.
Cell truthiness (`if val:`) is modelled as "present and non-empty"; a
numeric `0` cell, which Python also treats as falsy, is not
distinguished from the string `"0"`.
-/

structure Merge where
  minRow : Nat
  minCol : Nat
  maxRow : Nat
  maxCol : Nat
  deriving DecidableEq

def Merge.containsCell (m : Merge) (r c : Nat) : Bool :=
  m.minRow ≤ r ∧ r ≤ m.maxRow ∧ m.minCol ≤ c ∧ c ≤ m.maxCol

structure Grid where
  sheetName : String
  maxRow : Nat
  maxCol : Nat
  cells : List (List (Option String))
  merges : List Merge

/-- `ws.cell(row=r, column=c).value` (1-indexed). -/
def rawCell (g : Grid) (r c : Nat) : Option String :=
  (((g.cells.get? (r - 1)).getD []).get? (c - 1)).getD none

/-- `if val:` on a cell. -/
def truthyCell : Option String → Bool
  | none => false
  | some s => s ≠ ""

/-- `str(val).replace('\n', ' ').strip()`. -/
def cleanStr (s : String) : String :=
  pyStrip ⟨s.data.map (fun ch => if ch = '\n' then ' ' else ch)⟩

/-- `str(val).replace('\n', ' ').strip() if val else ""`. -/
def strOfCell : Option String → String
  | none => ""
  | some v => if v = "" then "" else cleanStr v

/-- `_get_cell_value` / `_get_cached_value_str`: merged cells resolve to
the anchor's value. -/
def cellValue (g : Grid) (r c : Nat) : String :=
  match g.merges.find? (fun m => m.containsCell r c) with
  | some m => strOfCell (rawCell g m.minRow m.minCol)
  | none => strOfCell (rawCell g r c)

/-- `_count_cells`: non-empty cells in columns `1..min(49, max_col)`. -/
def countCells (g : Grid) (row : Nat) : Nat :=
  ((List.range' 1 (min 49 g.maxCol)).filter (fun c => (rawCell g row c).isSome)).length

inductive SheetType where
  | TABULAR
  | METADATA
  | EMPTY
  | UNRECOGNISED
  deriving DecidableEq

def METADATA_INDICATORS : List String :=
  ["contents", "title", "notes", "definition", "about", "introduction"]

def STOP_WORDS : List String :=
  ["note", "source", "copyright", "©", "please", "this worksheet", "this table"]

def SUPPRESSED_VALUES : List String :=
  [":", "..", ".", "-", "*", "c", "z", "x", "[c]", "[z]", "[x]", "n/a", "na"]

structure ClassStats where
  emptyRows : Nat
  single : Nat
  multi : Nat
  totalCells : Nat

/-- The first-30-rows density/structure scan of `_classify_sheet`. -/
def classifyCounts (g : Grid) : ClassStats :=
  (List.range' 1 (min 30 g.maxRow)).foldl
    (fun st row =>
      let cells := ((List.range' 1 (min 19 g.maxCol)).filter
        (fun c => (rawCell g row c).isSome)).length
      { emptyRows := st.emptyRows + (if cells = 0 then 1 else 0),
        single := st.single + (if cells ≠ 0 ∧ cells ≤ 2 then 1 else 0),
        multi := st.multi + (if 2 < cells then 1 else 0),
        totalCells := st.totalCells + cells })
    ⟨0, 0, 0, 0⟩

/-- `_classify_sheet`.  `density < 0.15` with
`density = total_cells / (sample_rows * 10)` is the exact rational
inequality `total_cells * 2 < sample_rows * 3`; `single_ratio > 0.5`
with `single_ratio = single / max(1, single + multi)` is
`2 * single > max 1 (single + multi)`. -/
def classifySheet (g : Grid) : SheetType :=
  if g.maxRow < 2 ∨ g.maxCol < 2 then SheetType.EMPTY
  else
    let st := classifyCounts g
    let sampleRows := min 30 g.maxRow
    let densityLow : Prop :=
      if 0 < sampleRows then st.totalCells * 2 < sampleRows * 3 else True
    if densityLow ∨ (max 1 (st.single + st.multi) < 2 * st.single ∧ st.multi < 5) then
      SheetType.METADATA
    else
      let firstVal := rawCell g 1 1
      if truthyCell firstVal ∧
          METADATA_INDICATORS.any (fun ind => strContains (pyLower (firstVal.getD "")) ind) ∧
          st.multi < 3 then
        SheetType.METADATA
      else if 3 ≤ st.multi then SheetType.TABULAR
      else SheetType.METADATA

/-- Rows opening a horizontal merge (`mr.max_col - mr.min_col >= 1`). -/
def mergeRows (g : Grid) : List Nat :=
  (g.merges.filter (fun m => m.minCol < m.maxCol)).map (fun m => m.minRow)

/-- Regex `^(19|20)\d{2}$`. -/
def calendarYear (v : String) : Bool :=
  match v.data with
  | [c1, c2, c3, c4] =>
    ((c1 = '1' ∧ c2 = '9') ∨ (c1 = '2' ∧ c2 = '0')) ∧ isDigitChar c3 ∧ isDigitChar c4
  | _ => false

/-- The part after the leading digit run of a fiscal-year string: a
dash or slash, then 2 to 4 digits. -/
def fiscalYearTail : List Char → Bool
  | sep :: tail =>
    (sep = '-' ∨ sep = '/') ∧ 2 ≤ tail.length ∧ tail.length ≤ 4 ∧ tail.all isDigitChar
  | [] => false

/-- Regex: four digits, a dash or slash, then 2 to 4 digits, anchored. -/
def fiscalYear (v : String) : Bool :=
  (v.data.takeWhile isDigitChar).length = 4 ∧ fiscalYearTail (v.data.dropWhile isDigitChar)

/-- Regex `^[QH][1-4]$` (case-insensitive). -/
def qhPeriod (v : String) : Bool :=
  match v.data with
  | [c1, c2] => (c1 = 'Q' ∨ c1 = 'q' ∨ c1 = 'H' ∨ c1 = 'h') ∧ '1' ≤ c2 ∧ c2 ≤ '4'
  | _ => false

/-- `val_clean.rstrip('²³¹')`. -/
def rstripSupers (v : String) : String :=
  ⟨rstripP (fun c => c = '²' ∨ c = '³' ∨ c = '¹') v.data⟩

/-- Regex: a currency sign followed by one or more digits, anchored. -/
def currencyAmount : List Char → Bool
  | c1 :: rest => (c1 = '£' ∨ c1 = '$' ∨ c1 = '€') ∧ rest ≠ [] ∧ rest.all isDigitChar
  | [] => false

/-- `_is_unit_label`: currency amount, or one of the exact unit words. -/
def isUnitLabel (v : String) : Bool :=
  currencyAmount v.data ∨
  (pyStrip (pyLower v)) ∈ (["%", "percent", "percentage", "rate", "number", "count",
    "total", "fte", "wte", "000", "000s"] : List String)

/-- `_is_real_numeric_data`: parses as a float after stripping
currency/percent/thousands characters, and is not year-like or a unit
label. -/
def isRealNumericData (v : String) : Bool :=
  let vc := pyStrip v
  if calendarYear vc then false
  else if fiscalYear (rstripSupers vc) then false
  else if isUnitLabel vc then false
  else pyFloatOk (removeChars [',', '£', '$', '%'] vc)

/-- How one non-empty cell is counted by the header-detection loop. -/
inductive CellClass where
  | skip
  | unit
  | year
  | period
  | numeric
  | text
  deriving DecidableEq

/-- The `continue`-cascade of `_detect_all_header_rows` as a per-cell
classification. -/
def cellClass (v : String) : CellClass :=
  let vc := pyStrip v
  if (pyLower vc) ∈ SUPPRESSED_VALUES ∨ vc = ":" then CellClass.skip
  else if isUnitLabel vc then CellClass.unit
  else if calendarYear vc then CellClass.year
  else if fiscalYear (rstripSupers vc) then CellClass.year
  else if qhPeriod vc then CellClass.period
  else if isRealNumericData vc then CellClass.numeric
  else CellClass.text

structure RowCounts where
  realNumeric : Nat
  text : Nat
  year : Nat
  period : Nat
  unit : Nat
  deriving DecidableEq

def bumpCount (rc : RowCounts) (cl : CellClass) : RowCounts :=
  match cl with
  | CellClass.skip => rc
  | CellClass.unit => { rc with unit := rc.unit + 1 }
  | CellClass.year => { rc with year := rc.year + 1 }
  | CellClass.period => { rc with period := rc.period + 1 }
  | CellClass.numeric => { rc with realNumeric := rc.realNumeric + 1 }
  | CellClass.text => { rc with text := rc.text + 1 }

/-- The counting loop over columns `1..min(19, max_col)`. -/
def rowCounts (g : Grid) (row : Nat) : RowCounts :=
  (List.range' 1 (min 19 g.maxCol)).foldl
    (fun rc col =>
      let val := cellValue g row col
      if val = "" then rc else bumpCount rc (cellClass val))
    ⟨0, 0, 0, 0, 0⟩

/-- `is_data_row` inside the header scan: at least two real numerics. -/
def isDataRowCounts (rc : RowCounts) : Bool := 2 ≤ rc.realNumeric

/-- `is_header_row` of `_detect_all_header_rows`. -/
def isHeaderRowAt (g : Grid) (row : Nat) : Bool :=
  let rc := rowCounts g row
  row ∈ mergeRows g ∨ (2 ≤ rc.year ∧ rc.realNumeric = 0) ∨ 2 ≤ rc.period ∨
    2 ≤ rc.unit ∨ (rc.realNumeric = 0 ∧ 2 ≤ rc.text)

/-- The `continue` guards of the header scan: too few cells, a
`table`/`this`/`note` first cell, or a short label ending in a colon in
column B beside an empty column A. -/
def rowSkipped (g : Grid) (row : Nat) : Bool :=
  countCells g row < 2 ∨
  (strStartsWith (pyLower (cellValue g row 1)) "table" ∨
   strStartsWith (pyLower (cellValue g row 1)) "this" ∨
   strStartsWith (pyLower (cellValue g row 1)) "note") ∨
  (pyStrip (cellValue g row 2) ≠ "" ∧ strEndsWith (pyStrip (cellValue g row 2)) ":" ∧
   (pyStrip (cellValue g row 2)).length < 25 ∧ pyStrip (cellValue g row 1) = "")

/-- `_detect_all_header_rows`: scan rows 1–29 with a
(first header row, finished block) state; the block is the run from the
first header-candidate to the row before the first data row that is not
itself a header candidate. -/
def detectAllHeaderRows (g : Grid) : List Nat :=
  let scan := (List.range' 1 29).foldl
    (fun (st : Option Nat × Option (List Nat)) row =>
      match st.2 with
      | some _ => st
      | none =>
        if rowSkipped g row then st
        else
          let isH := isHeaderRowAt g row
          let isD := isDataRowCounts (rowCounts g row)
          let first := match st.1 with
            | none =>
              if isH ∧ (2 ≤ countCells g row ∨ row ∈ mergeRows g) then some row else none
            | some f => some f
          match first with
          | some f => if isD ∧ ¬ isH then (first, some (List.range' f (row - f))) else (first, none)
          | none => (none, none))
    (none, none)
  match scan.2 with
  | some hs => hs
  | none =>
    match scan.1 with
    | some f => [f]
    | none => []

/-- `_is_data_row` (the standalone method used for the data-start
search): counts of (numeric, non-None) cells in the first 19 columns. -/
def dataRowCounts (g : Grid) (row : Nat) : Nat × Nat :=
  (List.range' 1 (min 19 g.maxCol)).foldl
    (fun nt col =>
      match rawCell g row col with
      | none => nt
      | some v =>
        let s := pyStrip v
        if (pyLower s) ∈ SUPPRESSED_VALUES then (nt.1, nt.2 + 1)
        else if pyFloatOk (removeChars [',', '£', '$', '%'] s) then (nt.1 + 1, nt.2 + 1)
        else (nt.1, nt.2 + 1))
    (0, 0)

def isDataRow (g : Grid) (row : Nat) : Bool :=
  2 ≤ (dataRowCounts g row).1 ∨
    (3 ≤ (dataRowCounts g row).2 ∧ 1 ≤ (dataRowCounts g row).1)

/-- `max(header_rows)` (header rows are all positive). -/
def maxHeader (hs : List Nat) : Nat := hs.foldl max 0

/-- The `while data_start_row <= min(max_row, max(header_rows) + 5)`
search: the first data row in the five-row window, else just past it. -/
def findDataStart (g : Grid) (hmax : Nat) : Nat :=
  let bound := min g.maxRow (hmax + 5)
  match (List.range' (hmax + 1) (bound + 1 - (hmax + 1))).find? (fun r => isDataRow g r) with
  | some r => r
  | none => max (hmax + 1) (bound + 1)

/-- openpyxl `get_column_letter` (bijective base 26); the first
argument is fuel, always called with `n` itself. -/
def colLetterAux : Nat → Nat → List Char → List Char
  | 0, _, acc => acc
  | fuel + 1, n, acc =>
    if n = 0 then acc
    else colLetterAux fuel ((n - 1) / 26) (Char.ofNat ('A'.toNat + (n - 1) % 26) :: acc)

def get_column_letter (n : Nat) : String := ⟨colLetterAux n n []⟩

/-- `re.sub(r'[^a-z0-9]+', '_', s)`: each run of characters outside
`a-z0-9` becomes a single underscore.  The flag records whether the
previous character was in such a run. -/
def runToUnd : List Char → Bool → List Char
  | [], _ => []
  | c :: cs, inRun =>
    if Sanitize.isLowerAlpha c ∨ isDigitChar c then c :: runToUnd cs false
    else if inRun then runToUnd cs true
    else '_' :: runToUnd cs true

def DB_RESERVED : List String :=
  ["month", "year", "group", "order", "table", "index", "key",
   "value", "date", "time", "user", "name", "type", "level"]

/-- `_to_db_identifier`. -/
def _to_db_identifier (name : String) : String :=
  let clean := pyLower name
  let clean := clean.data.filter (fun c => ¬ (c = '£' ∨ c = '$' ∨ c = '€' ∨ c = '%'))
  let clean := runToUnd clean false
  let clean := Sanitize.collapseUnd clean false
  let clean := rstripP (fun c => c = '_') (clean.dropWhile (fun c => c = '_'))
  if clean = [] then "col_unnamed"
  else
    let clean := if (⟨clean⟩ : String) ∈ DB_RESERVED then clean ++ "_val".data else clean
    let clean := match clean.head? with
      | some c0 => if isDigitChar c0 then "col_".data ++ clean else clean
      | none => clean
    ⟨clean.take 63⟩

structure ColumnInfo where
  excel_col : String
  col_index : Nat
  pg_name : String
  original_headers : List String
  inferred_type : String
  sample_values : List (Option String)
  deriving DecidableEq

structure TableStructure where
  sheet_name : String
  sheet_type : SheetType
  header_rows : List Nat
  data_start_row : Nat
  data_end_row : Nat
  columns : List (Nat × ColumnInfo)
  error_message : Option String
  deriving DecidableEq

/-- `TableStructure.is_valid`. -/
def TableStructure.is_valid (ts : TableStructure) : Bool :=
  ts.sheet_type = SheetType.TABULAR ∧ ts.error_message = none

/-- The per-row inner loop of `_find_max_column`: the scan from
`min(max_col, 500)` downwards stops at the first non-empty cell, i.e.
yields the largest occupied column (0 when the row is empty). -/
def lastFilledCol (g : Grid) (row : Nat) : Nat :=
  ((List.range' 1 (min g.maxCol 500)).filter (fun c => (rawCell g row c).isSome)).foldl max 0

/-- `_find_max_column`. -/
def findMaxColumn (g : Grid) (headerRows : List Nat) (dataStart : Nat) : Nat :=
  let rowsToCheck := headerRows ++
    List.range' dataStart (min (dataStart + 5) (g.maxRow + 1) - dataStart)
  rowsToCheck.foldl (fun m r => max m (lastFilledCol g r)) 1

/-- The deduplication of `unique_headers`: drop empties and collapse
adjacent repeats. -/
def uniqueHeaders (hs : List String) : List String :=
  hs.foldl (fun u h => if h ≠ "" ∧ (u = [] ∨ u.getLast? ≠ some h) then u ++ [h] else u) []

/-- One column of `_build_column_hierarchy`; the accumulator carries the
built columns and the `used_names` counter dict. -/
def buildColumnStep (g : Grid) (headerRows hasDataRows sampleRows : List Nat)
    (acc : List (Nat × ColumnInfo) × List (String × Nat)) (col : Nat) :
    List (Nat × ColumnInfo) × List (String × Nat) :=
  let headerValues := headerRows.map (fun r => cellValue g r col)
  let hasData := hasDataRows.any (fun r => (rawCell g r col).isSome)
  if ¬ hasData ∧ headerValues.all (fun h => h = "") then acc
  else
    let uh := uniqueHeaders headerValues
    let rawName := if uh ≠ [] then String.intercalate "_" uh
      else "column_" ++ get_column_letter col
    let pgName := _to_db_identifier rawName
    let next : String × List (String × Nat) :=
      match acc.2.find? (fun p => p.1 = pgName) with
      | some p =>
        let suffix := "_" ++ toString (p.2 + 1)
        let base := if 63 < pgName.length + suffix.length
          then (⟨pgName.data.take (63 - suffix.length)⟩ : String) else pgName
        (base ++ suffix, acc.2.map (fun q => if q.1 = pgName then (q.1, q.2 + 1) else q))
      | none => (pgName, acc.2 ++ [(pgName, 0)])
    let samples := sampleRows.map (fun r => rawCell g r col)
    (acc.1 ++ [(col, ⟨get_column_letter col, col, next.1, headerValues,
      "VARCHAR(255)", samples⟩)], next.2)

/-- `_build_column_hierarchy`. -/
def buildColumnHierarchy (g : Grid) (headerRows : List Nat) (dataStart : Nat) :
    List (Nat × ColumnInfo) :=
  let maxCol := findMaxColumn g headerRows dataStart
  let hasDataRows := List.range' dataStart (min (dataStart + 5) (g.maxRow + 1) - dataStart)
  let sampleRows := List.range' dataStart (min (dataStart + 10) (g.maxRow + 1) - dataStart)
  ((List.range' 1 maxCol).foldl (buildColumnStep g headerRows hasDataRows sampleRows)
    ([], [])).1

/-- A cell that stops `_find_data_end`: truthy and starting (after
strip and lower) with a stop word. -/
def rowFooter (g : Grid) (row maxColScan : Nat) : Bool :=
  (List.range' 1 maxColScan).any (fun c =>
    match rawCell g row c with
    | none => false
    | some v => v ≠ "" ∧ STOP_WORDS.any (fun sw => strStartsWith (pyLower (pyStrip v)) sw))

def rowHasContent (g : Grid) (row maxColScan : Nat) : Bool :=
  (List.range' 1 maxColScan).any (fun c => truthyCell (rawCell g row c))

/-- The scan loop of `_find_data_end`: `dataEnd` is the last row seen
with content, `streak` the run of empty rows since; a footer row or a
fifth consecutive empty row stops the scan. -/
def findDataEndAux (g : Grid) : List Nat → Nat → Nat → Nat → Nat
  | [], dataEnd, _, _ => dataEnd
  | r :: rest, dataEnd, streak, maxColScan =>
    if rowFooter g r maxColScan then dataEnd
    else if rowHasContent g r maxColScan then findDataEndAux g rest r 0 maxColScan
    else if 4 ≤ streak then dataEnd
    else findDataEndAux g rest dataEnd (streak + 1) maxColScan

/-- `_find_data_end`. -/
def findDataEnd (g : Grid) (dataStart : Nat) : Nat :=
  let maxScan := min g.maxRow 10000
  findDataEndAux g (List.range' dataStart (maxScan + 1 - dataStart)) dataStart 0
    (min 5 g.maxCol)

/-- `_infer_type_from_values`.  In this model every cell is a string,
so `str(v)` is the value itself.  The ratio tests are written in exact
cross-multiplied form: `int_count / total > 0.7` is
`int_count * 10 > total * 7`. -/
def inferTypeFromValues (values : List (Option String)) (colName : String) : String :=
  if values.any (fun v => match v with
      | none => false
      | some s => (pyLower (pyStrip s)) ∈ SUPPRESSED_VALUES) then "VARCHAR(255)"
  else
    let clean := (values.filterMap id).filter
      (fun s => ¬ (pyLower (pyStrip s)) ∈ SUPPRESSED_VALUES)
    if clean = [] then "VARCHAR(255)"
    else
      let nameLower := pyLower colName
      if (["date", "month", "year", "quarter", "period"] : List String).any
          (fun x => strContains nameLower x) then "VARCHAR(255)"
      else if (["description", "definition", "notes", "comment", "detail"] : List String).any
          (fun x => strContains nameLower x) then "TEXT"
      else if (["name", "category", "group", "trust", "type"] : List String).any
          (fun x => strContains nameLower x) then "VARCHAR(255)"
      else if (["code", "org", "ics", "nhse"] : List String).any
          (fun x => strContains nameLower x) then "VARCHAR(20)"
      else
        let sample := clean.take 25
        let counts := sample.foldl
          (fun (c : Nat × Nat × Nat) v =>
            let s := pyStrip v
            if strContains s " - " ∨ strContains (pyLower s) " to " then
              (c.1, c.2.1, c.2.2 + 1)
            else if pyFloatOk (removeChars [',', '£', '$', '%'] s) then
              if strContains s "." then (c.1, c.2.1 + 1, c.2.2) else (c.1 + 1, c.2.1, c.2.2)
            else (c.1, c.2.1, c.2.2 + 1))
          (0, 0, 0)
        let total := sample.length
        if total = 0 then "VARCHAR(255)"
        else if total * 7 < counts.1 * 10 ∧ counts.2.1 = 0 then "INTEGER"
        else if total * 7 < (counts.1 + counts.2.1) * 10 then
          if strContains nameLower "percent" ∨ strContains nameLower "rate" ∨
              strContains nameLower "%" then "NUMERIC(10,4)"
          else "DOUBLE PRECISION"
        else if (sample.map (fun v => v.length)).foldl max 0 ≤ 100 then "VARCHAR(255)"
        else "TEXT"

/-- `_infer_column_types`.  All modelled cells are strings (openpyxl
data type `'s'`), so the native-numeric branches never fire and every
column falls through to `_infer_type_from_values` on its samples;
`sample_values` is replaced by the first 100 data-range raw values. -/
def inferColumnTypes (g : Grid) (cols : List (Nat × ColumnInfo))
    (dataStart dataEnd : Nat) : List (Nat × ColumnInfo) :=
  cols.map (fun ci =>
    let samples := ((List.range' dataStart (dataEnd + 1 - dataStart)).map
      (fun r => rawCell g r ci.1)).take 100
    (ci.1, { ci.2 with
      sample_values := samples,
      inferred_type := inferTypeFromValues samples ci.2.pg_name }))

/-- The `try` body of `infer_structure`, with the two explicit raises
as `Except.error`. -/
def inferBody (g : Grid) : Except String TableStructure :=
  let headerRows := detectAllHeaderRows g
  if headerRows = [] then Except.error "Could not detect header rows"
  else
    let dataStart := findDataStart g (maxHeader headerRows)
    let columns := buildColumnHierarchy g headerRows dataStart
    if columns = [] then Except.error "No data columns detected"
    else
      let dataEnd := findDataEnd g dataStart
      Except.ok ⟨g.sheetName, SheetType.TABULAR, headerRows, dataStart, dataEnd,
        inferColumnTypes g columns dataStart dataEnd, none⟩

/-- `infer_structure` (the memoisation cache is unobservable and not
modelled). -/
def infer_structure (g : Grid) : TableStructure :=
  let st := classifySheet g
  if st ≠ SheetType.TABULAR then ⟨g.sheetName, st, [], 0, 0, [], none⟩
  else
    match inferBody g with
    | Except.ok ts => ts
    | Except.error msg => ⟨g.sheetName, SheetType.UNRECOGNISED, [], 0, 0, [], some msg⟩

/-! ### Unfolding equations -/

lemma infer_structure_eq (g : Grid) :
    infer_structure g =
      if classifySheet g ≠ SheetType.TABULAR then
        ⟨g.sheetName, classifySheet g, [], 0, 0, [], none⟩
      else
        match inferBody g with
        | Except.ok ts => ts
        | Except.error msg =>
          ⟨g.sheetName, SheetType.UNRECOGNISED, [], 0, 0, [], some msg⟩ := rfl

lemma inferBody_eq (g : Grid) :
    inferBody g =
      if detectAllHeaderRows g = [] then Except.error "Could not detect header rows"
      else
        if buildColumnHierarchy g (detectAllHeaderRows g)
            (findDataStart g (maxHeader (detectAllHeaderRows g))) = [] then
          Except.error "No data columns detected"
        else
          Except.ok ⟨g.sheetName, SheetType.TABULAR, detectAllHeaderRows g,
            findDataStart g (maxHeader (detectAllHeaderRows g)),
            findDataEnd g (findDataStart g (maxHeader (detectAllHeaderRows g))),
            inferColumnTypes g
              (buildColumnHierarchy g (detectAllHeaderRows g)
                (findDataStart g (maxHeader (detectAllHeaderRows g))))
              (findDataStart g (maxHeader (detectAllHeaderRows g)))
              (findDataEnd g (findDataStart g (maxHeader (detectAllHeaderRows g)))),
            none⟩ := rfl

/-- All-numeric sheet: tabular by density, but no row is ever a header
candidate, so header detection fails. -/
def c4Grid : Grid :=
  ⟨"s4", 6, 3,
   [[some "1", some "2", some "3"],
    [some "4", some "5", some "6"],
    [some "7", some "8", some "9"],
    [some "10", some "11", some "12"],
    [some "13", some "14", some "15"],
    [some "16", some "17", some "18"]], []⟩

/-- C4: any failure inside the structure-inference body (the raised
“Could not detect header rows” / “No data columns detected” errors) is
caught: `infer_structure` still returns a `TableStructure`, with
`sheet_type` `UNRECOGNISED`, an empty columns map, and the error's
message in `error_message`. -/
theorem C4_infer_structure_catches (g : Grid) (msg : String)
    (hc : classifySheet g = SheetType.TABULAR)
    (hb : inferBody g = Except.error msg) :
    infer_structure g = ⟨g.sheetName, SheetType.UNRECOGNISED, [], 0, 0, [], some msg⟩ := by
  rw [infer_structure_eq, hc, hb]
  simp

theorem C4_witness :
    classifySheet c4Grid = SheetType.TABULAR ∧
    inferBody c4Grid = Except.error "Could not detect header rows" ∧
    infer_structure c4Grid =
      ⟨"s4", SheetType.UNRECOGNISED, [], 0, 0, [], some "Could not detect header rows"⟩ :=
  ⟨by decide, rfl,
   C4_infer_structure_catches c4Grid "Could not detect header rows" (by decide) rfl⟩

/-! ### C5: the TABULAR invariant -/

lemma findDataStart_ge (g : Grid) (hmax : Nat) : hmax + 1 ≤ findDataStart g hmax := by
  unfold findDataStart
  dsimp only
  split
  · next r hr =>
    obtain ⟨i, hi, hri⟩ := List.mem_range'.mp (List.mem_of_find?_eq_some hr)
    omega
  · exact Nat.le_max_left _ _

lemma findDataEndAux_lb (g : Grid) (lb : Nat) :
    ∀ (rows : List Nat) (dataEnd streak maxColScan : Nat),
      lb ≤ dataEnd → (∀ r ∈ rows, lb ≤ r) →
      lb ≤ findDataEndAux g rows dataEnd streak maxColScan := by
  intro rows
  induction rows with
  | nil => intro dataEnd streak maxColScan h _; exact h
  | cons r rest ih =>
    intro dataEnd streak maxColScan h hr
    unfold findDataEndAux
    by_cases hf : rowFooter g r maxColScan = true
    · rw [if_pos hf]; exact h
    · rw [if_neg hf]
      by_cases hc : rowHasContent g r maxColScan = true
      · rw [if_pos hc]
        exact ih r 0 maxColScan (hr r (List.mem_cons_self r rest))
          (fun x hx => hr x (List.mem_cons_of_mem r hx))
      · rw [if_neg hc]
        by_cases hs : 4 ≤ streak
        · rw [if_pos hs]; exact h
        · rw [if_neg hs]
          exact ih dataEnd (streak + 1) maxColScan h
            (fun x hx => hr x (List.mem_cons_of_mem r hx))

lemma findDataEnd_ge (g : Grid) (dataStart : Nat) : dataStart ≤ findDataEnd g dataStart := by
  unfold findDataEnd
  refine findDataEndAux_lb g dataStart _ dataStart 0 _ (Nat.le_refl _) ?_
  intro r hr
  obtain ⟨i, hi, hri⟩ := List.mem_range'.mp hr
  omega

lemma inferBody_ok_shape (g : Grid) (ts : TableStructure)
    (h : inferBody g = Except.ok ts) :
    ts.columns ≠ [] ∧ 1 ≤ ts.data_start_row ∧ ts.data_start_row ≤ ts.data_end_row := by
  rw [inferBody_eq] at h
  by_cases h1 : detectAllHeaderRows g = []
  · rw [if_pos h1] at h; exact absurd h (by simp)
  · rw [if_neg h1] at h
    by_cases h2 : buildColumnHierarchy g (detectAllHeaderRows g)
        (findDataStart g (maxHeader (detectAllHeaderRows g))) = []
    · rw [if_pos h2] at h; exact absurd h (by simp)
    · rw [if_neg h2] at h
      have hts := ((Except.ok.injEq _ _).mp h).symm
      rw [hts]
      refine ⟨?_, ?_, ?_⟩
      · show inferColumnTypes g _ _ _ ≠ []
        unfold inferColumnTypes
        simpa using h2
      · show 1 ≤ findDataStart g (maxHeader (detectAllHeaderRows g))
        have := findDataStart_ge g (maxHeader (detectAllHeaderRows g))
        omega
      · exact findDataEnd_ge g _

/-- Ordinary table: one text header row, five rows of data below. -/
def c5Grid : Grid :=
  ⟨"s5", 6, 3,
   [[some "region", some "v1", some "v2"],
    [some "a", some "1", some "2"],
    [some "b", some "3", some "4"],
    [some "c", some "5", some "6"],
    [some "d", some "7", some "8"],
    [some "e", some "9", some "10"]], []⟩

/-- C5: every structure returned by `infer_structure` with `sheet_type`
TABULAR has a non-empty columns map and a data row range with
`1 ≤ data_start_row ≤ data_end_row`; the failure paths return
non-TABULAR structures instead. -/
theorem C5_tabular_invariant (g : Grid)
    (h : (infer_structure g).sheet_type = SheetType.TABULAR) :
    (infer_structure g).columns ≠ [] ∧
    1 ≤ (infer_structure g).data_start_row ∧
    (infer_structure g).data_start_row ≤ (infer_structure g).data_end_row := by
  rw [infer_structure_eq] at h ⊢
  by_cases hc : classifySheet g = SheetType.TABULAR
  · rw [if_neg (by simp [hc])] at h ⊢
    cases hb : inferBody g with
    | ok ts => exact inferBody_ok_shape g ts hb
    | error msg =>
      rw [hb] at h
      exact SheetType.noConfusion h
  · rw [if_pos (by simp [hc])] at h
    exact absurd h hc

theorem C5_witness :
    (infer_structure c5Grid).sheet_type = SheetType.TABULAR ∧
    (infer_structure c5Grid).columns ≠ [] ∧
    1 ≤ (infer_structure c5Grid).data_start_row ∧
    (infer_structure c5Grid).data_start_row ≤ (infer_structure c5Grid).data_end_row :=
  ⟨by decide, C5_tabular_invariant c5Grid (by decide)⟩

/-! ### C7: the header-candidate rule -/

/-- The non-empty values the header scan classifies in a row. -/
def scannedVals (g : Grid) (row : Nat) : List String :=
  ((List.range' 1 (min 19 g.maxCol)).map (fun c => cellValue g row c)).filter
    (fun v => ¬ v = "")

/-- How many scanned values of the row fall in a given class. -/
def classCount (g : Grid) (row : Nat) (cl : CellClass) : Nat :=
  (scannedVals g row).countP (fun v => cellClass v = cl)

lemma foldBump_counts (vs : List String) : ∀ rc : RowCounts,
    vs.foldl (fun rc v => bumpCount rc (cellClass v)) rc =
      ⟨rc.realNumeric + vs.countP (fun v => cellClass v = CellClass.numeric),
       rc.text + vs.countP (fun v => cellClass v = CellClass.text),
       rc.year + vs.countP (fun v => cellClass v = CellClass.year),
       rc.period + vs.countP (fun v => cellClass v = CellClass.period),
       rc.unit + vs.countP (fun v => cellClass v = CellClass.unit)⟩ := by
  induction vs with
  | nil => intro rc; simp
  | cons v vs ih =>
    intro rc
    rw [List.foldl_cons, ih (bumpCount rc (cellClass v))]
    cases hcl : cellClass v <;>
      simp [bumpCount, List.countP_cons, hcl, Nat.add_assoc, Nat.add_comm 1]

lemma rowCounts_foldVals (g : Grid) (row : Nat) : ∀ (cols : List Nat) (rc : RowCounts),
    cols.foldl (fun rc col =>
        let val := cellValue g row col
        if val = "" then rc else bumpCount rc (cellClass val)) rc =
      ((cols.map (fun c => cellValue g row c)).filter (fun v => ¬ v = "")).foldl
        (fun rc v => bumpCount rc (cellClass v)) rc := by
  intro cols
  induction cols with
  | nil => intro rc; rfl
  | cons c cols ih =>
    intro rc
    by_cases hv : cellValue g row c = ""
    · simp only [List.foldl_cons, List.map_cons, List.filter_cons, hv]
      simpa [hv] using ih rc
    · simp only [List.foldl_cons, List.map_cons, List.filter_cons, hv]
      simpa [hv] using ih (bumpCount rc (cellClass (cellValue g row c)))

lemma rowCounts_classCount (g : Grid) (row : Nat) :
    rowCounts g row =
      ⟨classCount g row CellClass.numeric, classCount g row CellClass.text,
       classCount g row CellClass.year, classCount g row CellClass.period,
       classCount g row CellClass.unit⟩ := by
  unfold rowCounts classCount scannedVals
  rw [rowCounts_foldVals g row, foldBump_counts]
  simp

/-- The header-candidate rule as the claim words it: merge opener, or
at least two period/unit tokens (counting years, fiscal years,
quarters, and unit labels together) with no real numerics, or at least
two non-numeric text cells with no real numerics. -/
def specHeaderCandidate (g : Grid) (row : Nat) : Bool :=
  row ∈ mergeRows g ∨
  (2 ≤ classCount g row CellClass.year + classCount g row CellClass.period +
      classCount g row CellClass.unit ∧ classCount g row CellClass.numeric = 0) ∨
  (classCount g row CellClass.numeric = 0 ∧ 2 ≤ classCount g row CellClass.text)

/-- A row the scan does classify (two cells, no skip guard fires) with
one calendar-year token and one quarter token and nothing else. -/
def c7Grid : Grid := ⟨"s7", 1, 2, [[some "2019", some "Q1"]], []⟩

/-- C7 counterexample: a scanned row holding exactly one year token and
one quarter token has two period/unit tokens and no real numerics, so
the claimed rule calls it a header candidate, but the code keeps the
year, quarter and unit counters separate and requires two in the same
counter, so `is_header_row` is false. -/
theorem C7_counterexample :
    rowSkipped c7Grid 1 = false ∧
    specHeaderCandidate c7Grid 1 = true ∧
    isHeaderRowAt c7Grid 1 = false := by decide

/-- C7 (amended): a scanned row is a header candidate iff it opens a
horizontal merge, or has at least 2 year tokens and no real numerics,
or at least 2 quarter/half tokens, or at least 2 unit labels, or no
real numerics and at least 2 plain text cells — each token kind counted
separately. -/
theorem C7_header_candidate_rule (g : Grid) (row : Nat) :
    isHeaderRowAt g row = true ↔
      (row ∈ mergeRows g ∨
       (2 ≤ classCount g row CellClass.year ∧ classCount g row CellClass.numeric = 0) ∨
       2 ≤ classCount g row CellClass.period ∨
       2 ≤ classCount g row CellClass.unit ∨
       (classCount g row CellClass.numeric = 0 ∧ 2 ≤ classCount g row CellClass.text)) := by
  unfold isHeaderRowAt
  rw [rowCounts_classCount]
  simp

/-! ### C8: an empty data window does not fail extraction -/

lemma findDataStart_none (g : Grid) (hmax : Nat)
    (h : ∀ r ∈ List.range' (hmax + 1) (min g.maxRow (hmax + 5) + 1 - (hmax + 1)),
      ¬ isDataRow g r = true) :
    findDataStart g hmax = max (hmax + 1) (min g.maxRow (hmax + 5) + 1) := by
  unfold findDataStart
  dsimp only
  rw [List.find?_eq_none.mpr h]

/-- Six rows of plain text: the first becomes the header block, rows
2–6 hold no data-candidate row, and columns are still built from the
header row alone. -/
def c8Grid : Grid :=
  ⟨"s8", 6, 3,
   [[some "alpha", some "beta", some "gamma"],
    [some "delta", some "epsilon", some "zeta"],
    [some "eta", some "theta", some "iota"],
    [some "kappa", some "lambda", some "mu"],
    [some "nu", some "xi", some "omicron"],
    [some "pi", some "rho", some "sigma"]], []⟩

/-- C8 counterexample: the header block is row 1 and no data-candidate
row occurs in the 5-row window (rows 2–6), yet `infer_structure`
returns a valid TABULAR structure rather than failing. -/
theorem C8_counterexample :
    detectAllHeaderRows c8Grid = [1] ∧
    (∀ r ∈ List.range' 2 5, ¬ isDataRow c8Grid r = true) ∧
    (infer_structure c8Grid).is_valid = true := by decide

/-- C8 (amended): when no data-candidate row occurs in the 5-row
window after the header block, extraction does not fail: the data
start row is set just past the scanned window
(`max (max_header + 1) (min max_row (max_header + 5) + 1)`), and as
long as column building still finds columns the result is a valid
TABULAR structure. -/
theorem C8_no_data_window_still_tabular (g : Grid)
    (hcls : classifySheet g = SheetType.TABULAR)
    (hdr : detectAllHeaderRows g ≠ [])
    (hnod : ∀ r ∈ List.range' (maxHeader (detectAllHeaderRows g) + 1)
        (min g.maxRow (maxHeader (detectAllHeaderRows g) + 5) + 1 -
          (maxHeader (detectAllHeaderRows g) + 1)), ¬ isDataRow g r = true)
    (hcols : buildColumnHierarchy g (detectAllHeaderRows g)
        (max (maxHeader (detectAllHeaderRows g) + 1)
          (min g.maxRow (maxHeader (detectAllHeaderRows g) + 5) + 1)) ≠ []) :
    (infer_structure g).sheet_type = SheetType.TABULAR ∧
    (infer_structure g).error_message = none ∧
    (infer_structure g).data_start_row =
      max (maxHeader (detectAllHeaderRows g) + 1)
        (min g.maxRow (maxHeader (detectAllHeaderRows g) + 5) + 1) := by
  have hds := findDataStart_none g (maxHeader (detectAllHeaderRows g)) hnod
  rw [infer_structure_eq, if_neg (by simp [hcls]), inferBody_eq, if_neg hdr, hds,
    if_neg hcols]
  exact ⟨rfl, rfl, rfl⟩

theorem C8_witness :
    classifySheet c8Grid = SheetType.TABULAR ∧
    detectAllHeaderRows c8Grid = [1] ∧
    (infer_structure c8Grid).data_start_row = 7 ∧
    ((infer_structure c8Grid).sheet_type = SheetType.TABULAR ∧
     (infer_structure c8Grid).error_message = none ∧
     (infer_structure c8Grid).data_start_row =
       max (maxHeader (detectAllHeaderRows c8Grid) + 1)
         (min c8Grid.maxRow (maxHeader (detectAllHeaderRows c8Grid) + 5) + 1)) :=
  ⟨by decide, by decide, by decide,
   C8_no_data_window_still_tabular c8Grid (by decide) (by decide) (by decide) (by decide)⟩

end DataWarp.Extractor

